import Mathlib

/-!
# A verification of `qiskit.tools.monitor.job_monitor`

This file is a shallow embedding of `src/qiskit/tools/monitor/job_monitor.py`
(the functions `_text_checker` and `job_monitor`) together with theorems about
its observable behaviour: the sequence of sleep intervals, the status and
queue-position queries issued to the job handle, and the writes performed on
the output sink.

The job handle and the output sink are external collaborators.  Every call the
monitor makes to one of them is modelled by an index into a result sequence:
the `n`-th call to `job.status()` returns `Job.status n`, the `n`-th call to
`job.queue_position()` returns `Job.queue_position n`, and the `n`-th write on
the output file returns `Sink.write n`.  A result of `Except.error e` models
the collaborator raising the exception `e`.  The monitor's unbounded `while`
loop is modelled with explicit fuel; running out of fuel is reported as a
distinguished outcome rather than conflated with normal termination.
-/

namespace JobMonitor

/-- A job status as produced by the backend: a symbolic `name` (such as
"QUEUED", "RUNNING" or "DONE") and a human-readable display string `value`,
mirroring the `status.name` / `status.value` attributes read by
`_text_checker`. -/
structure JobStatus where
  name : String
  value : String
deriving DecidableEq, Repr

/-- The status names on which the `while` loop exits
(`["DONE", "CANCELLED", "ERROR"]` on line 43 of the source). -/
def terminalNames : List String := ["DONE", "CANCELLED", "ERROR"]

/-- The job handle.  `status n` is the result of the `n`-th call to
`job.status()`, `queue_position n` the result of the `n`-th call to
`job.queue_position()`; `has_queue_position` models
`hasattr(job, "queue_position")`.  `Except.error e` models the call raising
the exception `e`. -/
structure Job (ε : Type) where
  status : Nat → Except ε JobStatus
  has_queue_position : Bool
  queue_position : Nat → Except ε (Option Int)

/-- The output sink.  `write n` is the result of the `n`-th write call
performed on the output file object. -/
structure Sink (ε : Type) where
  write : Nat → Except ε Unit

/-- The observable trace of one monitoring session: the interval passed to
each `time.sleep` call, the (padded) status message of each status line that
was printed, and the full strings received by the output sink, in order. -/
structure Trace where
  sleeps : List Int
  msgs : List String
  writes : List String
deriving DecidableEq, Repr

/-- Bookkeeping for one run: how many status calls, queue-position calls and
sink writes have been issued so far, plus the trace. -/
structure RunState where
  statusIdx : Nat
  qposIdx : Nat
  writeIdx : Nat
  trace : Trace
deriving DecidableEq, Repr

/-- The state at the start of a call to `_text_checker`. -/
def initState : RunState := ⟨0, 0, 0, ⟨[], [], []⟩⟩

/-- The local variables of the `while` loop: the current interval, the
running maximum message length `msg_len`, the last printed message
`prev_msg`, and the most recently fetched status. -/
structure LoopVars where
  interval : Int
  msg_len : Nat
  prev_msg : String
  status : JobStatus
deriving DecidableEq, Repr

/-- Result of one iteration of the loop body: continue with updated loop
variables, propagate a raised exception, or hit the `max(None, 2)` type error
that Python raises when the third `queue_position()` call returns `None`
after the second returned a number. -/
inductive StepResult (ε : Type) where
  | next (v : LoopVars) (s : RunState)
  | raised (e : ε) (s : RunState)
  | typeErr (s : RunState)
deriving DecidableEq, Repr

/-- Outcome of a whole `_text_checker` run under the given fuel. -/
inductive Outcome (ε : Type) where
  | finished (s : RunState)
  | outOfFuel (v : LoopVars) (s : RunState)
  | raised (e : ε) (s : RunState)
  | typeErr (s : RunState)
deriving DecidableEq, Repr

/-- Python's `"%s" %` rendering of an `int | None` value. -/
def pyStr : Option Int → String
  | none => "None"
  | some n => toString n

/-- Python's `" " * n`. -/
def spaces (n : Nat) : String := String.mk (List.replicate n ' ')

/-- The string passed to the output sink by
`print("{}{}: {}".format(line_discipline, "Job Status", msg), end="")`. -/
def statusLine (line_discipline msg : String) : String :=
  line_discipline ++ "Job Status" ++ ": " ++ msg

/-- Lines 58-62 of the source: pad `msg` with trailing spaces when it is
shorter than `msg_len`, otherwise grow `msg_len` when `msg` is longer.
Returns the adjusted message and the new `msg_len`. -/
def padMsg (msg : String) (msg_len : Nat) : String × Nat :=
  if msg.length < msg_len then (msg ++ spaces (msg_len - msg.length), msg_len)
  else if msg_len < msg.length then (msg, msg.length)
  else (msg, msg_len)

/-- Record a `time.sleep interval` call. -/
def RunState.sleep (i : Int) (s : RunState) : RunState :=
  { s with trace := { s.trace with sleeps := s.trace.sleeps ++ [i] } }

/-- Account for one issued `job.status()` call. -/
def RunState.bumpStatus (s : RunState) : RunState :=
  { s with statusIdx := s.statusIdx + 1 }

/-- Account for one issued `job.queue_position()` call. -/
def RunState.bumpQpos (s : RunState) : RunState :=
  { s with qposIdx := s.qposIdx + 1 }

/-- Record a successful status-line print: the sink receives `line` and the
message `msg` is noted in the trace. -/
def RunState.print (line msg : String) (s : RunState) : RunState :=
  { s with writeIdx := s.writeIdx + 1,
           trace := { s.trace with writes := s.trace.writes ++ [line],
                                   msgs := s.trace.msgs ++ [msg] } }

/-- Record the successful final `print("", file=output)`, which sends a lone
newline to the sink. -/
def RunState.newline (s : RunState) : RunState :=
  { s with writeIdx := s.writeIdx + 1,
           trace := { s.trace with writes := s.trace.writes ++ ["\n"] } }

/-- Tail of the loop body (lines 58-66 of the source): pad the message,
update `msg_len`, and when the message changed and `quiet` is false print it
(a write on the sink, which may raise). -/
def finishIter {ε : Type} (sink : Sink ε) (quiet : Bool)
    (line_discipline : String) (interval : Int) (rawMsg : String)
    (status : JobStatus) (msg_len : Nat) (prev_msg : String)
    (s : RunState) : StepResult ε :=
  let p := padMsg rawMsg msg_len
  if p.1 ≠ prev_msg ∧ quiet = false then
    match sink.write s.writeIdx with
    | .error e => .raised e s
    | .ok _ =>
        .next ⟨interval, p.2, p.1, status⟩
          (s.print (statusLine line_discipline p.1) p.1)
  else
    .next ⟨interval, p.2, prev_msg, status⟩ s

/-- Lines 48-53 of the source, taken in the queued case: build the message
suffix from a first `job.queue_position()` call, test a second call against
`None` (forcing the interval to 2 on `None` even when the interval was
user-set), and otherwise, when the interval was not user-set, compute
`max(job.queue_position(), 2)` from a third call.  A third call returning
`None` is Python's `max(None, 2)` type error. -/
def queuedStep {ε : Type} (job : Job ε) (sink : Sink ε)
    (interval_set quiet : Bool) (line_discipline : String)
    (v : LoopVars) (status : JobStatus) (s : RunState) : StepResult ε :=
  match job.queue_position s.qposIdx with
  | .error e => .raised e s
  | .ok q1 =>
    let s2 := s.bumpQpos
    let msg := status.value ++ " (" ++ pyStr q1 ++ ")"
    match job.queue_position s2.qposIdx with
    | .error e => .raised e s2
    | .ok q2 =>
      let s3 := s2.bumpQpos
      match q2 with
      | none =>
          finishIter sink quiet line_discipline 2 msg status
            v.msg_len v.prev_msg s3
      | some _ =>
        if interval_set = true then
          finishIter sink quiet line_discipline v.interval msg status
            v.msg_len v.prev_msg s3
        else
          match job.queue_position s3.qposIdx with
          | .error e => .raised e s3
          | .ok q3 =>
            let s4 := s3.bumpQpos
            match q3 with
            | none => .typeErr s4
            | some p =>
                finishIter sink quiet line_discipline (max p 2) msg status
                  v.msg_len v.prev_msg s4

/-- One iteration of the `while` loop body (lines 44-66 of the source):
sleep for the current interval, refetch the status, take the queued branch
(`queuedStep`) when the new status is queued and the job exposes
`queue_position`, otherwise reset the interval to 2 unless user-set; then
pad and possibly print the message (`finishIter`). -/
def loopIter {ε : Type} (job : Job ε) (sink : Sink ε)
    (interval_set quiet : Bool) (line_discipline : String)
    (v : LoopVars) (s : RunState) : StepResult ε :=
  let s0 := s.sleep v.interval
  match job.status s0.statusIdx with
  | .error e => .raised e s0
  | .ok status =>
    let s1 := s0.bumpStatus
    if status.name = "QUEUED" ∧ job.has_queue_position = true then
      queuedStep job sink interval_set quiet line_discipline v status s1
    else
      finishIter sink quiet line_discipline
        (if interval_set = true then v.interval else 2) status.value status
        v.msg_len v.prev_msg s1

/-- The `while` loop of `_text_checker` (line 43), with explicit fuel
bounding the number of iterations.  The loop exits as soon as the name of
the current status is terminal; fuel is consumed only by actual
iterations. -/
def loop {ε : Type} (job : Job ε) (sink : Sink ε)
    (interval_set quiet : Bool) (line_discipline : String) :
    Nat → LoopVars → RunState → Outcome ε
  | 0, v, s =>
      if v.status.name ∈ terminalNames then .finished s else .outOfFuel v s
  | fuel + 1, v, s =>
      if v.status.name ∈ terminalNames then .finished s
      else
        match loopIter job sink interval_set quiet line_discipline v s with
        | .next v' s' =>
            loop job sink interval_set quiet line_discipline fuel v' s'
        | .raised e s' => .raised e s'
        | .typeErr s' => .typeErr s'

/-- Lines 41-42 of the source: the initial status-line print performed
before the loop when not quiet (the state at this point has exactly one
issued status call and nothing else). -/
def initPrint {ε : Type} (sink : Sink ε) (quiet : Bool)
    (line_discipline : String) (st : JobStatus) : Except ε RunState :=
  if quiet = false then
    match sink.write initState.bumpStatus.writeIdx with
    | .error e => .error e
    | .ok _ =>
        .ok (initState.bumpStatus.print
          (statusLine line_discipline st.value) st.value)
  else .ok initState.bumpStatus

/-- Lines 67-68 of the source: after the loop exits normally, print the
final newline unless quiet; all abnormal loop results pass through. -/
def postLoop {ε : Type} (sink : Sink ε) (quiet : Bool) :
    Outcome ε → Outcome ε
  | .finished s2 =>
      if quiet = false then
        match sink.write s2.writeIdx with
        | .error e => .raised e s2
        | .ok _ => .finished s2.newline
      else .finished s2
  | o => o

/-- `_text_checker(job, interval, _interval_set, quiet, output,
line_discipline)` (lines 20-68 of the source): fetch the status once,
print the initial line unless quiet (`initPrint`), run the loop starting
from `prev_msg = msg` and `msg_len = len(msg)`, and on normal exit print
the final newline unless quiet (`postLoop`). -/
def textChecker {ε : Type} (job : Job ε) (sink : Sink ε) (interval : Int)
    (interval_set quiet : Bool) (line_discipline : String)
    (fuel : Nat) : Outcome ε :=
  match job.status 0 with
  | .error e => .raised e initState
  | .ok status =>
    match initPrint sink quiet line_discipline status with
    | .error e => .raised e initState.bumpStatus
    | .ok s1 =>
        postLoop sink quiet
          (loop job sink interval_set quiet line_discipline fuel
            ⟨interval, status.value.length, status.value, status⟩ s1)

/-- `job_monitor(job, interval, quiet, output, line_discipline)`
(lines 71-112 of the source): when no interval is supplied, default to 5
and leave it auto-adjustable, otherwise mark it user-set. -/
def job_monitor {ε : Type} (job : Job ε) (sink : Sink ε)
    (interval : Option Int) (quiet : Bool) (line_discipline : String)
    (fuel : Nat) : Outcome ε :=
  match interval with
  | none => textChecker job sink 5 false quiet line_discipline fuel
  | some i => textChecker job sink i true quiet line_discipline fuel

/-- The run state carried by any outcome. -/
def Outcome.state {ε : Type} : Outcome ε → RunState
  | .finished s => s
  | .outOfFuel _ s => s
  | .raised _ s => s
  | .typeErr s => s

/-- The sleep intervals of an outcome's trace. -/
def Outcome.sleeps {ε : Type} (o : Outcome ε) : List Int := o.state.trace.sleeps

/-- The sink writes of an outcome's trace. -/
def Outcome.writes {ε : Type} (o : Outcome ε) : List String := o.state.trace.writes

/-- The printed status messages of an outcome's trace. -/
def Outcome.msgs {ε : Type} (o : Outcome ε) : List String := o.state.trace.msgs

/-- Constructor tag of an outcome, for comparing the shapes of two runs. -/
def Outcome.kind {ε : Type} : Outcome ε → Nat
  | .finished _ => 0
  | .outOfFuel _ _ => 1
  | .raised _ _ => 2
  | .typeErr _ => 3

/-- The exception carried by a `raised` outcome, if any. -/
def Outcome.errorOf {ε : Type} : Outcome ε → Option ε
  | .raised e _ => some e
  | _ => none

/-- The run state carried by a step result. -/
def StepResult.state {ε : Type} : StepResult ε → RunState
  | .next _ s => s
  | .raised _ s => s
  | .typeErr s => s

/-- The interval a step result hands to the next iteration, if it
continues. -/
def StepResult.intervalOf {ε : Type} : StepResult ε → Option Int
  | .next v _ => some v.interval
  | _ => none

/-- A job handle none of whose calls raises. -/
def pureJob (ε : Type) (statusF : Nat → JobStatus) (hqp : Bool)
    (qposF : Nat → Option Int) : Job ε :=
  ⟨fun n => .ok (statusF n), hqp, fun n => .ok (qposF n)⟩

/-- An output sink none of whose writes raises. -/
def pureSink (ε : Type) : Sink ε := ⟨fun _ => .ok ()⟩

/-! ## Concrete statuses and jobs used in scenarios -/

/-- The queued status, with qiskit's `JobStatus.QUEUED.value` string. -/
def queuedStatus : JobStatus := ⟨"QUEUED", "job is queued"⟩

/-- The running status, with qiskit's `JobStatus.RUNNING.value` string. -/
def runningStatus : JobStatus := ⟨"RUNNING", "job is actively running"⟩

/-- The done status, with qiskit's `JobStatus.DONE.value` string. -/
def doneStatus : JobStatus := ⟨"DONE", "job has successfully run"⟩

/-- The job of the scenario `[queued(pos=3), queued(pos=1), running, done]`:
successive `status()` calls return queued, queued, running, done; by the
time the monitor queries the queue position (it only does so inside the
loop, after the second `status()` call) the job's position is 1. -/
def scenarioJob : Job Unit :=
  pureJob Unit
    (fun n => [queuedStatus, queuedStatus, runningStatus, doneStatus].getD n doneStatus)
    true (fun _ => some 1)

/-- A job that is queued with a null (`None`) queue position before
finishing. -/
def nullPosJob : Job Unit :=
  pureJob Unit (fun n => [queuedStatus, queuedStatus, doneStatus].getD n doneStatus)
    true (fun _ => none)

/-! ## Characterization of `finishIter` -/

/-- When the padded message differs from `prev_msg`, `quiet` is false and
the write succeeds, `finishIter` prints the message. -/
theorem finishIter_eq_print {ε : Type} {sink : Sink ε} {quiet : Bool}
    {ld : String} {i : Int} {m : String} {st : JobStatus} {ml : Nat}
    {pm : String} {s : RunState}
    (h : (padMsg m ml).1 ≠ pm ∧ quiet = false)
    (hw : sink.write s.writeIdx = .ok ()) :
    finishIter sink quiet ld i m st ml pm s =
      .next ⟨i, (padMsg m ml).2, (padMsg m ml).1, st⟩
        (s.print (statusLine ld (padMsg m ml).1) (padMsg m ml).1) := by
  unfold finishIter
  simp only [if_pos h, hw]

/-- When the message would be printed but the write raises, `finishIter`
propagates the exception. -/
theorem finishIter_eq_print_err {ε : Type} {sink : Sink ε} {quiet : Bool}
    {ld : String} {i : Int} {m : String} {st : JobStatus} {ml : Nat}
    {pm : String} {s : RunState} {e : ε}
    (h : (padMsg m ml).1 ≠ pm ∧ quiet = false)
    (hw : sink.write s.writeIdx = .error e) :
    finishIter sink quiet ld i m st ml pm s = .raised e s := by
  unfold finishIter
  simp only [if_pos h, hw]

/-- When the message is unchanged or `quiet` is true, `finishIter` prints
nothing and keeps `prev_msg`. -/
theorem finishIter_eq_skip {ε : Type} {sink : Sink ε} {quiet : Bool}
    {ld : String} {i : Int} {m : String} {st : JobStatus} {ml : Nat}
    {pm : String} {s : RunState}
    (h : ¬((padMsg m ml).1 ≠ pm ∧ quiet = false)) :
    finishIter sink quiet ld i m st ml pm s =
      .next ⟨i, (padMsg m ml).2, pm, st⟩ s := by
  unfold finishIter
  simp only [if_neg h]

/-- `finishIter` never sleeps, issues no status query and no queue-position
query: its state differs from `s` at most in the write bookkeeping. -/
theorem finishIter_state_fields {ε : Type} (sink : Sink ε) (quiet : Bool)
    (ld : String) (i : Int) (m : String) (st : JobStatus) (ml : Nat)
    (pm : String) (s : RunState) :
    (finishIter sink quiet ld i m st ml pm s).state.trace.sleeps =
        s.trace.sleeps ∧
    (finishIter sink quiet ld i m st ml pm s).state.statusIdx =
        s.statusIdx ∧
    (finishIter sink quiet ld i m st ml pm s).state.qposIdx =
        s.qposIdx := by
  by_cases h : (padMsg m ml).1 ≠ pm ∧ quiet = false
  · cases hw : sink.write s.writeIdx with
    | error e =>
        rw [finishIter_eq_print_err h hw]
        exact ⟨rfl, rfl, rfl⟩
    | ok u =>
        cases u
        rw [finishIter_eq_print h hw]
        simp [StepResult.state, RunState.print]
  · rw [finishIter_eq_skip h]
    exact ⟨rfl, rfl, rfl⟩

/-- When no write raises, `finishIter` always continues, with the interval
it was handed, the `msg_len` computed by `padMsg`, and a trace that at most
gains one printed status line. -/
theorem finishIter_ok {ε : Type} (sink : Sink ε) (quiet : Bool)
    (ld : String) (i : Int) (m : String) (st : JobStatus) (ml : Nat)
    (pm : String) (s : RunState)
    (hsink : ∀ n, sink.write n = .ok ()) :
    ∃ pm' s', finishIter sink quiet ld i m st ml pm s =
        .next ⟨i, (padMsg m ml).2, pm', st⟩ s' ∧
      s'.statusIdx = s.statusIdx ∧ s'.qposIdx = s.qposIdx ∧
      s'.trace.sleeps = s.trace.sleeps ∧
      ((s'.trace.writes = s.trace.writes ∧ s'.trace.msgs = s.trace.msgs) ∨
       (s'.trace.writes = s.trace.writes ++ [statusLine ld (padMsg m ml).1] ∧
        s'.trace.msgs = s.trace.msgs ++ [(padMsg m ml).1])) := by
  by_cases h : (padMsg m ml).1 ≠ pm ∧ quiet = false
  · refine ⟨(padMsg m ml).1, _, finishIter_eq_print h (hsink s.writeIdx), ?_⟩
    simp [RunState.print]
  · exact ⟨pm, s, finishIter_eq_skip h, rfl, rfl, rfl, Or.inl ⟨rfl, rfl⟩⟩

/-! ## Projection lemmas for the state helpers -/

@[simp] theorem sleep_statusIdx (i : Int) (s : RunState) :
    (s.sleep i).statusIdx = s.statusIdx := rfl

@[simp] theorem sleep_qposIdx (i : Int) (s : RunState) :
    (s.sleep i).qposIdx = s.qposIdx := rfl

@[simp] theorem sleep_writeIdx (i : Int) (s : RunState) :
    (s.sleep i).writeIdx = s.writeIdx := rfl

@[simp] theorem sleep_sleeps (i : Int) (s : RunState) :
    (s.sleep i).trace.sleeps = s.trace.sleeps ++ [i] := rfl

@[simp] theorem sleep_msgs (i : Int) (s : RunState) :
    (s.sleep i).trace.msgs = s.trace.msgs := rfl

@[simp] theorem sleep_writes (i : Int) (s : RunState) :
    (s.sleep i).trace.writes = s.trace.writes := rfl

@[simp] theorem bumpStatus_statusIdx (s : RunState) :
    s.bumpStatus.statusIdx = s.statusIdx + 1 := rfl

@[simp] theorem bumpStatus_qposIdx (s : RunState) :
    s.bumpStatus.qposIdx = s.qposIdx := rfl

@[simp] theorem bumpStatus_writeIdx (s : RunState) :
    s.bumpStatus.writeIdx = s.writeIdx := rfl

@[simp] theorem bumpStatus_trace (s : RunState) :
    s.bumpStatus.trace = s.trace := rfl

@[simp] theorem bumpQpos_statusIdx (s : RunState) :
    s.bumpQpos.statusIdx = s.statusIdx := rfl

@[simp] theorem bumpQpos_qposIdx (s : RunState) :
    s.bumpQpos.qposIdx = s.qposIdx + 1 := rfl

@[simp] theorem bumpQpos_writeIdx (s : RunState) :
    s.bumpQpos.writeIdx = s.writeIdx := rfl

@[simp] theorem bumpQpos_trace (s : RunState) :
    s.bumpQpos.trace = s.trace := rfl

@[simp] theorem print_statusIdx (line msg : String) (s : RunState) :
    (s.print line msg).statusIdx = s.statusIdx := rfl

@[simp] theorem print_qposIdx (line msg : String) (s : RunState) :
    (s.print line msg).qposIdx = s.qposIdx := rfl

@[simp] theorem print_writeIdx (line msg : String) (s : RunState) :
    (s.print line msg).writeIdx = s.writeIdx + 1 := rfl

@[simp] theorem print_sleeps (line msg : String) (s : RunState) :
    (s.print line msg).trace.sleeps = s.trace.sleeps := rfl

@[simp] theorem print_msgs (line msg : String) (s : RunState) :
    (s.print line msg).trace.msgs = s.trace.msgs ++ [msg] := rfl

@[simp] theorem print_writes (line msg : String) (s : RunState) :
    (s.print line msg).trace.writes = s.trace.writes ++ [line] := rfl

@[simp] theorem newline_sleeps (s : RunState) :
    s.newline.trace.sleeps = s.trace.sleeps := rfl

@[simp] theorem newline_msgs (s : RunState) :
    s.newline.trace.msgs = s.trace.msgs := rfl

@[simp] theorem newline_writes (s : RunState) :
    s.newline.trace.writes = s.trace.writes ++ ["\n"] := rfl

@[simp] theorem newline_statusIdx (s : RunState) :
    s.newline.statusIdx = s.statusIdx := rfl

@[simp] theorem newline_qposIdx (s : RunState) :
    s.newline.qposIdx = s.qposIdx := rfl

/-! ## Rewrite lemmas for `queuedStep` and `loopIter` -/

/-- First queue-position call raises. -/
theorem queuedStep_eq_err1 {ε : Type} {job : Job ε} {sink : Sink ε}
    {iset quiet : Bool} {ld : String} {v : LoopVars} {st : JobStatus}
    {s : RunState} {e : ε}
    (h1 : job.queue_position s.qposIdx = .error e) :
    queuedStep job sink iset quiet ld v st s = .raised e s := by
  unfold queuedStep
  rw [h1]

/-- Second queue-position call raises. -/
theorem queuedStep_eq_err2 {ε : Type} {job : Job ε} {sink : Sink ε}
    {iset quiet : Bool} {ld : String} {v : LoopVars} {st : JobStatus}
    {s : RunState} {q1 : Option Int} {e : ε}
    (h1 : job.queue_position s.qposIdx = .ok q1)
    (h2 : job.queue_position (s.qposIdx + 1) = .error e) :
    queuedStep job sink iset quiet ld v st s = .raised e s.bumpQpos := by
  unfold queuedStep
  rw [h1]
  simp only [bumpQpos_qposIdx]
  rw [h2]

/-- Second queue-position call returns `None`: the interval is forced to 2
regardless of `interval_set`. -/
theorem queuedStep_eq_none {ε : Type} {job : Job ε} {sink : Sink ε}
    {iset quiet : Bool} {ld : String} {v : LoopVars} {st : JobStatus}
    {s : RunState} {q1 : Option Int}
    (h1 : job.queue_position s.qposIdx = .ok q1)
    (h2 : job.queue_position (s.qposIdx + 1) = .ok none) :
    queuedStep job sink iset quiet ld v st s =
      finishIter sink quiet ld 2 (st.value ++ " (" ++ pyStr q1 ++ ")") st
        v.msg_len v.prev_msg s.bumpQpos.bumpQpos := by
  unfold queuedStep
  rw [h1]
  simp only [bumpQpos_qposIdx]
  rw [h2]

/-- Second call returns a number and the interval is user-set: no third
call, interval kept. -/
theorem queuedStep_eq_set {ε : Type} {job : Job ε} {sink : Sink ε}
    {quiet : Bool} {ld : String} {v : LoopVars} {st : JobStatus}
    {s : RunState} {q1 : Option Int} {p : Int}
    (h1 : job.queue_position s.qposIdx = .ok q1)
    (h2 : job.queue_position (s.qposIdx + 1) = .ok (some p)) :
    queuedStep job sink true quiet ld v st s =
      finishIter sink quiet ld v.interval (st.value ++ " (" ++ pyStr q1 ++ ")")
        st v.msg_len v.prev_msg s.bumpQpos.bumpQpos := by
  unfold queuedStep
  rw [h1]
  simp only [bumpQpos_qposIdx]
  rw [h2]
  rfl

/-- Third queue-position call raises. -/
theorem queuedStep_eq_err3 {ε : Type} {job : Job ε} {sink : Sink ε}
    {quiet : Bool} {ld : String} {v : LoopVars} {st : JobStatus}
    {s : RunState} {q1 : Option Int} {p : Int} {e : ε}
    (h1 : job.queue_position s.qposIdx = .ok q1)
    (h2 : job.queue_position (s.qposIdx + 1) = .ok (some p))
    (h3 : job.queue_position (s.qposIdx + 2) = .error e) :
    queuedStep job sink false quiet ld v st s =
      .raised e s.bumpQpos.bumpQpos := by
  unfold queuedStep
  rw [h1]
  simp only [bumpQpos_qposIdx]
  rw [h2]
  simp only [bumpQpos_qposIdx]
  rw [show s.qposIdx + 1 + 1 = s.qposIdx + 2 from rfl, h3]
  rfl

/-- Third queue-position call returns `None`: Python's `max(None, 2)` type
error. -/
theorem queuedStep_eq_typeErr {ε : Type} {job : Job ε} {sink : Sink ε}
    {quiet : Bool} {ld : String} {v : LoopVars} {st : JobStatus}
    {s : RunState} {q1 : Option Int} {p : Int}
    (h1 : job.queue_position s.qposIdx = .ok q1)
    (h2 : job.queue_position (s.qposIdx + 1) = .ok (some p))
    (h3 : job.queue_position (s.qposIdx + 2) = .ok none) :
    queuedStep job sink false quiet ld v st s =
      .typeErr s.bumpQpos.bumpQpos.bumpQpos := by
  unfold queuedStep
  rw [h1]
  simp only [bumpQpos_qposIdx]
  rw [h2]
  simp only [bumpQpos_qposIdx]
  rw [show s.qposIdx + 1 + 1 = s.qposIdx + 2 from rfl, h3]
  rfl

/-- Third queue-position call returns a number: interval becomes
`max p 2`. -/
theorem queuedStep_eq_pos {ε : Type} {job : Job ε} {sink : Sink ε}
    {quiet : Bool} {ld : String} {v : LoopVars} {st : JobStatus}
    {s : RunState} {q1 : Option Int} {p p3 : Int}
    (h1 : job.queue_position s.qposIdx = .ok q1)
    (h2 : job.queue_position (s.qposIdx + 1) = .ok (some p))
    (h3 : job.queue_position (s.qposIdx + 2) = .ok (some p3)) :
    queuedStep job sink false quiet ld v st s =
      finishIter sink quiet ld (max p3 2) (st.value ++ " (" ++ pyStr q1 ++ ")")
        st v.msg_len v.prev_msg s.bumpQpos.bumpQpos.bumpQpos := by
  unfold queuedStep
  rw [h1]
  simp only [bumpQpos_qposIdx]
  rw [h2]
  simp only [bumpQpos_qposIdx]
  rw [show s.qposIdx + 1 + 1 = s.qposIdx + 2 from rfl, h3]
  rfl

/-- The status query raises. -/
theorem loopIter_eq_err {ε : Type} {job : Job ε} {sink : Sink ε}
    {iset quiet : Bool} {ld : String} {v : LoopVars} {s : RunState} {e : ε}
    (h : job.status s.statusIdx = .error e) :
    loopIter job sink iset quiet ld v s = .raised e (s.sleep v.interval) := by
  unfold loopIter
  simp only [sleep_statusIdx]
  rw [h]

/-- The new status is queued and the job exposes `queue_position`. -/
theorem loopIter_eq_queued {ε : Type} {job : Job ε} {sink : Sink ε}
    {iset quiet : Bool} {ld : String} {v : LoopVars} {s : RunState}
    {st : JobStatus}
    (h : job.status s.statusIdx = .ok st)
    (hq : st.name = "QUEUED" ∧ job.has_queue_position = true) :
    loopIter job sink iset quiet ld v s =
      queuedStep job sink iset quiet ld v st (s.sleep v.interval).bumpStatus := by
  unfold loopIter
  simp only [sleep_statusIdx]
  rw [h]
  simp only [if_pos hq]

/-- The new status is not queued (or the job lacks `queue_position`):
the interval resets to 2 unless user-set. -/
theorem loopIter_eq_other {ε : Type} {job : Job ε} {sink : Sink ε}
    {iset quiet : Bool} {ld : String} {v : LoopVars} {s : RunState}
    {st : JobStatus}
    (h : job.status s.statusIdx = .ok st)
    (hq : ¬(st.name = "QUEUED" ∧ job.has_queue_position = true)) :
    loopIter job sink iset quiet ld v s =
      finishIter sink quiet ld (if iset = true then v.interval else 2)
        st.value st v.msg_len v.prev_msg (s.sleep v.interval).bumpStatus := by
  unfold loopIter
  simp only [sleep_statusIdx]
  rw [h]
  simp only [if_neg hq]

/-! ## Rewrite lemmas for `initPrint`, `postLoop` and `textChecker` -/

/-- Quiet runs skip the initial print. -/
theorem initPrint_quiet {ε : Type} (sink : Sink ε) (ld : String)
    (st : JobStatus) :
    initPrint sink true ld st = .ok initState.bumpStatus := rfl

/-- Non-quiet runs perform the initial print when the write succeeds. -/
theorem initPrint_loud_ok {ε : Type} {sink : Sink ε} {ld : String}
    {st : JobStatus}
    (hw : sink.write initState.bumpStatus.writeIdx = .ok ()) :
    initPrint sink false ld st =
      .ok (initState.bumpStatus.print (statusLine ld st.value) st.value) := by
  unfold initPrint
  rw [if_pos rfl, hw]

/-- Non-quiet runs propagate an initial-print write error. -/
theorem initPrint_loud_err {ε : Type} {sink : Sink ε} {ld : String}
    {st : JobStatus} {e : ε}
    (hw : sink.write initState.bumpStatus.writeIdx = .error e) :
    initPrint sink false ld st = .error e := by
  unfold initPrint
  rw [if_pos rfl, hw]

/-- Quiet runs skip the final newline print entirely. -/
theorem postLoop_quiet {ε : Type} (sink : Sink ε) (o : Outcome ε) :
    postLoop sink true o = o := by
  cases o <;> rfl

/-- The final newline print happens only on a `finished` loop result. -/
theorem postLoop_outOfFuel {ε : Type} (sink : Sink ε) (quiet : Bool)
    (v : LoopVars) (s : RunState) :
    postLoop sink quiet (.outOfFuel v s) = .outOfFuel v s := rfl

/-- A raised loop result passes through the final print untouched. -/
theorem postLoop_raised {ε : Type} (sink : Sink ε) (quiet : Bool) (e : ε)
    (s : RunState) :
    postLoop sink quiet (.raised e s) = .raised e s := rfl

/-- A type-error loop result passes through the final print untouched. -/
theorem postLoop_typeErr {ε : Type} (sink : Sink ε) (quiet : Bool)
    (s : RunState) :
    postLoop sink quiet (.typeErr s) = .typeErr s := rfl

/-- On normal exit with `quiet = false` and a succeeding write, the run
ends with a lone newline sent to the sink. -/
theorem postLoop_loud_ok {ε : Type} {sink : Sink ε} {s : RunState}
    (hw : sink.write s.writeIdx = .ok ()) :
    postLoop sink false (.finished s) = .finished s.newline := by
  simp [postLoop, hw]

/-- On normal exit with `quiet = false` and a failing write, the final
newline write's error propagates. -/
theorem postLoop_loud_err {ε : Type} {sink : Sink ε} {s : RunState} {e : ε}
    (hw : sink.write s.writeIdx = .error e) :
    postLoop sink false (.finished s) = .raised e s := by
  simp [postLoop, hw]

/-- The first status query raises: the whole run raises at once. -/
theorem textChecker_eq_statusErr {ε : Type} {job : Job ε} {sink : Sink ε}
    {i : Int} {iset quiet : Bool} {ld : String} {fuel : Nat} {e : ε}
    (h0 : job.status 0 = .error e) :
    textChecker job sink i iset quiet ld fuel = .raised e initState := by
  unfold textChecker
  rw [h0]

/-- The initial print raises: the whole run raises after one status
query. -/
theorem textChecker_eq_printErr {ε : Type} {job : Job ε} {sink : Sink ε}
    {i : Int} {iset quiet : Bool} {ld : String} {fuel : Nat}
    {st : JobStatus} {e : ε}
    (h0 : job.status 0 = .ok st)
    (h1 : initPrint sink quiet ld st = .error e) :
    textChecker job sink i iset quiet ld fuel =
      .raised e initState.bumpStatus := by
  unfold textChecker
  simp only [h0, h1]

/-- The initial status query and the initial print succeed: the run is
the loop followed by the final print. -/
theorem textChecker_eq_run {ε : Type} {job : Job ε} {sink : Sink ε}
    {i : Int} {iset quiet : Bool} {ld : String} {fuel : Nat}
    {st : JobStatus} {s1 : RunState}
    (h0 : job.status 0 = .ok st)
    (h1 : initPrint sink quiet ld st = .ok s1) :
    textChecker job sink i iset quiet ld fuel =
      postLoop sink quiet
        (loop job sink iset quiet ld fuel
          ⟨i, st.value.length, st.value, st⟩ s1) := by
  unfold textChecker
  simp only [h0, h1]

/-! ## Quiet runs perform no writes -/

/-- With `quiet = true`, `finishIter` never prints: it only updates
`msg_len`. -/
theorem finishIter_quiet {ε : Type} (sink : Sink ε) (ld : String) (i : Int)
    (m : String) (st : JobStatus) (ml : Nat) (pm : String) (s : RunState) :
    finishIter sink true ld i m st ml pm s =
      .next ⟨i, (padMsg m ml).2, pm, st⟩ s := by
  exact finishIter_eq_skip (by simp)

/-- With `quiet = true`, `queuedStep` leaves the write trace and write
counter untouched, whatever its result. -/
theorem queuedStep_quiet {ε : Type} (job : Job ε) (sink : Sink ε)
    (iset : Bool) (ld : String) (v : LoopVars) (st : JobStatus)
    (s : RunState) :
    (queuedStep job sink iset true ld v st s).state.trace.writes =
        s.trace.writes ∧
    (queuedStep job sink iset true ld v st s).state.trace.msgs =
        s.trace.msgs := by
  cases h1 : job.queue_position s.qposIdx with
  | error e => rw [queuedStep_eq_err1 h1]; exact ⟨rfl, rfl⟩
  | ok q1 =>
    cases h2 : job.queue_position (s.qposIdx + 1) with
    | error e => rw [queuedStep_eq_err2 h1 h2]; exact ⟨rfl, rfl⟩
    | ok q2 =>
      cases q2 with
      | none => rw [queuedStep_eq_none h1 h2, finishIter_quiet]; exact ⟨rfl, rfl⟩
      | some p =>
        cases iset with
        | true => rw [queuedStep_eq_set h1 h2, finishIter_quiet]; exact ⟨rfl, rfl⟩
        | false =>
          cases h3 : job.queue_position (s.qposIdx + 2) with
          | error e => rw [queuedStep_eq_err3 h1 h2 h3]; exact ⟨rfl, rfl⟩
          | ok q3 =>
            cases q3 with
            | none => rw [queuedStep_eq_typeErr h1 h2 h3]; exact ⟨rfl, rfl⟩
            | some p3 =>
                rw [queuedStep_eq_pos h1 h2 h3, finishIter_quiet]
                exact ⟨rfl, rfl⟩

/-- With `quiet = true`, one loop iteration leaves the write trace
untouched, whatever its result. -/
theorem loopIter_quiet {ε : Type} (job : Job ε) (sink : Sink ε)
    (iset : Bool) (ld : String) (v : LoopVars) (s : RunState) :
    (loopIter job sink iset true ld v s).state.trace.writes =
        s.trace.writes ∧
    (loopIter job sink iset true ld v s).state.trace.msgs =
        s.trace.msgs := by
  cases h : job.status s.statusIdx with
  | error e => rw [loopIter_eq_err h]; exact ⟨rfl, rfl⟩
  | ok st =>
    by_cases hq : st.name = "QUEUED" ∧ job.has_queue_position = true
    · rw [loopIter_eq_queued h hq]
      exact queuedStep_quiet job sink iset ld v st (s.sleep v.interval).bumpStatus
    · rw [loopIter_eq_other h hq, finishIter_quiet]
      exact ⟨rfl, rfl⟩

/-- With `quiet = true`, the whole loop leaves the write trace untouched,
whatever its outcome. -/
theorem loop_quiet {ε : Type} (job : Job ε) (sink : Sink ε) (iset : Bool)
    (ld : String) :
    ∀ (fuel : Nat) (v : LoopVars) (s : RunState),
      (loop job sink iset true ld fuel v s).state.trace.writes =
          s.trace.writes ∧
      (loop job sink iset true ld fuel v s).state.trace.msgs =
          s.trace.msgs
  | 0, v, s => by
      unfold loop
      split
      · exact ⟨rfl, rfl⟩
      · exact ⟨rfl, rfl⟩
  | fuel + 1, v, s => by
      unfold loop
      split
      · exact ⟨rfl, rfl⟩
      · cases hit : loopIter job sink iset true ld v s with
        | next v' s' =>
            have h1 := loopIter_quiet job sink iset ld v s
            rw [hit] at h1
            have h2 := loop_quiet job sink iset ld fuel v' s'
            exact ⟨h2.1.trans h1.1, h2.2.trans h1.2⟩
        | raised e s' =>
            have h1 := loopIter_quiet job sink iset ld v s
            rw [hit] at h1
            exact h1
        | typeErr s' =>
            have h1 := loopIter_quiet job sink iset ld v s
            rw [hit] at h1
            exact h1

/-- With `quiet = true`, `_text_checker` sends nothing to the output sink
and prints no message, whatever its outcome. -/
theorem textChecker_quiet {ε : Type} (job : Job ε) (sink : Sink ε)
    (i : Int) (iset : Bool) (ld : String) (fuel : Nat) :
    (textChecker job sink i iset true ld fuel).writes = [] ∧
    (textChecker job sink i iset true ld fuel).msgs = [] := by
  cases h0 : job.status 0 with
  | error e => rw [textChecker_eq_statusErr h0]; exact ⟨rfl, rfl⟩
  | ok st =>
      rw [textChecker_eq_run h0 (initPrint_quiet sink ld st),
        postLoop_quiet]
      have hl := loop_quiet job sink iset ld fuel
        ⟨i, st.value.length, st.value, st⟩ initState.bumpStatus
      exact ⟨hl.1, hl.2⟩

/-! ## Sleep-trace lemmas -/

/-- `queuedStep` never sleeps. -/
theorem queuedStep_state_sleeps {ε : Type} (job : Job ε) (sink : Sink ε)
    (iset quiet : Bool) (ld : String) (v : LoopVars) (st : JobStatus)
    (s : RunState) :
    (queuedStep job sink iset quiet ld v st s).state.trace.sleeps =
      s.trace.sleeps := by
  cases h1 : job.queue_position s.qposIdx with
  | error e => rw [queuedStep_eq_err1 h1]; rfl
  | ok q1 =>
    cases h2 : job.queue_position (s.qposIdx + 1) with
    | error e => rw [queuedStep_eq_err2 h1 h2]; rfl
    | ok q2 =>
      cases q2 with
      | none =>
          rw [queuedStep_eq_none h1 h2]
          exact (finishIter_state_fields _ _ _ _ _ _ _ _ _).1
      | some p =>
        cases iset with
        | true =>
            rw [queuedStep_eq_set h1 h2]
            exact (finishIter_state_fields _ _ _ _ _ _ _ _ _).1
        | false =>
          cases h3 : job.queue_position (s.qposIdx + 2) with
          | error e => rw [queuedStep_eq_err3 h1 h2 h3]; rfl
          | ok q3 =>
            cases q3 with
            | none => rw [queuedStep_eq_typeErr h1 h2 h3]; rfl
            | some p3 =>
                rw [queuedStep_eq_pos h1 h2 h3]
                exact (finishIter_state_fields _ _ _ _ _ _ _ _ _).1

/-- Every loop iteration records exactly one sleep, of the interval held at
its start, whatever its result. -/
theorem loopIter_state_sleeps {ε : Type} (job : Job ε) (sink : Sink ε)
    (iset quiet : Bool) (ld : String) (v : LoopVars) (s : RunState) :
    (loopIter job sink iset quiet ld v s).state.trace.sleeps =
      s.trace.sleeps ++ [v.interval] := by
  cases h : job.status s.statusIdx with
  | error e => rw [loopIter_eq_err h]; rfl
  | ok st =>
    by_cases hq : st.name = "QUEUED" ∧ job.has_queue_position = true
    · rw [loopIter_eq_queued h hq]
      rw [queuedStep_state_sleeps]
      rfl
    · rw [loopIter_eq_other h hq]
      rw [(finishIter_state_fields _ _ _ _ _ _ _ _ _).1]
      rfl

/-! ## A user-set interval is preserved unless a null queue position occurs -/

/-- `finishIter` hands the next iteration exactly the interval it was
given. -/
theorem finishIter_next_interval {ε : Type} {sink : Sink ε} {quiet : Bool}
    {ld : String} {i : Int} {m : String} {st : JobStatus} {ml : Nat}
    {pm : String} {s : RunState} {v' : LoopVars} {s' : RunState}
    (heq : finishIter sink quiet ld i m st ml pm s = .next v' s') :
    v'.interval = i := by
  by_cases h : (padMsg m ml).1 ≠ pm ∧ quiet = false
  · cases hw : sink.write s.writeIdx with
    | error e => rw [finishIter_eq_print_err h hw] at heq; cases heq
    | ok u => cases u; rw [finishIter_eq_print h hw] at heq; cases heq; rfl
  · rw [finishIter_eq_skip h] at heq; cases heq; rfl

/-- With a user-set interval and a job whose queue-position calls never
return `None`, `queuedStep` keeps the interval unchanged. -/
theorem queuedStep_iset_interval {ε : Type} {job : Job ε} {sink : Sink ε}
    {quiet : Bool} {ld : String} {v : LoopVars} {st : JobStatus}
    {s : RunState} {v' : LoopVars} {s' : RunState}
    (hq : ∀ n q, job.queue_position n = .ok q → q ≠ none)
    (heq : queuedStep job sink true quiet ld v st s = .next v' s') :
    v'.interval = v.interval := by
  cases h1 : job.queue_position s.qposIdx with
  | error e => rw [queuedStep_eq_err1 h1] at heq; cases heq
  | ok q1 =>
    cases h2 : job.queue_position (s.qposIdx + 1) with
    | error e => rw [queuedStep_eq_err2 h1 h2] at heq; cases heq
    | ok q2 =>
      cases q2 with
      | none => exact absurd rfl (hq _ _ h2)
      | some p =>
          rw [queuedStep_eq_set h1 h2] at heq
          exact finishIter_next_interval heq

/-- With a user-set interval and a job whose queue-position calls never
return `None`, a loop iteration keeps the interval unchanged. -/
theorem loopIter_iset_interval {ε : Type} {job : Job ε} {sink : Sink ε}
    {quiet : Bool} {ld : String} {v : LoopVars} {s : RunState}
    {v' : LoopVars} {s' : RunState}
    (hq : ∀ n q, job.queue_position n = .ok q → q ≠ none)
    (heq : loopIter job sink true quiet ld v s = .next v' s') :
    v'.interval = v.interval := by
  cases h : job.status s.statusIdx with
  | error e => rw [loopIter_eq_err h] at heq; cases heq
  | ok st =>
    by_cases hqd : st.name = "QUEUED" ∧ job.has_queue_position = true
    · rw [loopIter_eq_queued h hqd] at heq
      exact queuedStep_iset_interval hq heq
    · rw [loopIter_eq_other h hqd] at heq
      have h2 := finishIter_next_interval heq
      simpa using h2

/-- With a user-set interval `i` and no null queue positions, every sleep
the loop records is of interval `i`. -/
theorem loop_iset_sleeps {ε : Type} (job : Job ε) (sink : Sink ε)
    (quiet : Bool) (ld : String) (i : Int)
    (hq : ∀ n q, job.queue_position n = .ok q → q ≠ none) :
    ∀ (fuel : Nat) (v : LoopVars) (s : RunState), v.interval = i →
      (∀ x ∈ s.trace.sleeps, x = i) →
      ∀ x ∈ (loop job sink true quiet ld fuel v s).sleeps, x = i
  | 0, v, s => by
      intro hv hs
      unfold loop
      split
      · exact hs
      · exact hs
  | fuel + 1, v, s => by
      intro hv hs
      unfold loop
      split
      · exact hs
      · have hsl := loopIter_state_sleeps job sink true quiet ld v s
        cases hit : loopIter job sink true quiet ld v s with
        | next v' s' =>
            have hv' : v'.interval = i := (loopIter_iset_interval hq hit).trans hv
            rw [hit] at hsl
            refine loop_iset_sleeps job sink quiet ld i hq fuel v' s' hv' ?_
            intro x hx
            rw [show (StepResult.next v' s').state = s' from rfl] at hsl
            rw [hsl] at hx
            rcases List.mem_append.mp hx with hx | hx
            · exact hs x hx
            · rw [List.mem_singleton.mp hx, hv]
        | raised e s' =>
            rw [hit] at hsl
            intro x hx
            simp only [Outcome.sleeps, Outcome.state] at hx
            rw [show (StepResult.raised e s').state = s' from rfl] at hsl
            rw [hsl] at hx
            rcases List.mem_append.mp hx with hx | hx
            · exact hs x hx
            · rw [List.mem_singleton.mp hx, hv]
        | typeErr s' =>
            rw [hit] at hsl
            intro x hx
            simp only [Outcome.sleeps, Outcome.state] at hx
            rw [show (StepResult.typeErr s').state = s' from rfl] at hsl
            rw [hsl] at hx
            rcases List.mem_append.mp hx with hx | hx
            · exact hs x hx
            · rw [List.mem_singleton.mp hx, hv]

/-- The post-loop newline print never sleeps. -/
theorem postLoop_state_sleeps {ε : Type} (sink : Sink ε) (quiet : Bool)
    (o : Outcome ε) :
    (postLoop sink quiet o).state.trace.sleeps = o.state.trace.sleeps := by
  cases o with
  | finished s =>
      cases quiet with
      | true => rw [postLoop_quiet]
      | false =>
          cases hw : sink.write s.writeIdx with
          | error e => rw [postLoop_loud_err hw]; rfl
          | ok u =>
              cases u
              rw [postLoop_loud_ok hw]
              simp [Outcome.state]
  | outOfFuel v s => rw [postLoop_outOfFuel]
  | raised e s => rw [postLoop_raised]
  | typeErr s => rw [postLoop_typeErr]

/-- The post-loop newline print preserves the sleep trace. -/
theorem postLoop_sleeps {ε : Type} (sink : Sink ε) (quiet : Bool)
    (o : Outcome ε) :
    (postLoop sink quiet o).sleeps = o.sleeps :=
  postLoop_state_sleeps sink quiet o

/-- With a user-set interval `i` and no null queue positions, every sleep
of a `_text_checker` run is of interval `i`. -/
theorem textChecker_iset_sleeps {ε : Type} {job : Job ε} {sink : Sink ε}
    {quiet : Bool} {ld : String} {fuel : Nat} {i : Int}
    (hq : ∀ n q, job.queue_position n = .ok q → q ≠ none) :
    ∀ x ∈ (textChecker job sink i true quiet ld fuel).sleeps, x = i := by
  cases h0 : job.status 0 with
  | error e =>
      rw [textChecker_eq_statusErr h0]
      intro x hx
      cases hx
  | ok st =>
    cases quiet with
    | true =>
        rw [textChecker_eq_run h0 (initPrint_quiet sink ld st),
          postLoop_quiet]
        exact loop_iset_sleeps job sink true ld i hq fuel
          ⟨i, st.value.length, st.value, st⟩ initState.bumpStatus rfl
          (by intro x hx; cases hx)
    | false =>
      cases hw : sink.write initState.bumpStatus.writeIdx with
      | error e =>
          rw [textChecker_eq_printErr h0 (initPrint_loud_err hw)]
          intro x hx
          cases hx
      | ok u =>
          cases u
          rw [textChecker_eq_run h0 (initPrint_loud_ok hw)]
          intro x hx
          rw [postLoop_sleeps] at hx
          exact loop_iset_sleeps job sink false ld i hq fuel
            ⟨i, st.value.length, st.value, st⟩
            (initState.bumpStatus.print (statusLine ld st.value) st.value)
            rfl (by intro x hx; cases hx) x hx

/-- `padMsg` leaves a message alone when it is at least `msg_len` long. -/
theorem padMsg_of_le {m : String} {ml : Nat} (h : ml ≤ m.length) :
    (padMsg m ml).1 = m := by
  unfold padMsg
  split
  · omega
  · split
    · rfl
    · rfl

/-- A job that always reports queue position 3 while queued. -/
def steadyJob : Job Unit :=
  pureJob Unit
    (fun n => [queuedStatus, queuedStatus, doneStatus].getD n doneStatus)
    true (fun _ => some 3)

/-! ## Claim C1 -/

/-- **C1** (counterexample).  The claim says a caller-supplied interval is
used verbatim for every sleep, never auto-adjusted, even on a null queue
position.  But with a supplied interval of 7 and a job whose queue position
is null, the second sleep is 2, because line 50 of the source forces
`interval = 2` on a `None` position without consulting `_interval_set`. -/
theorem user_interval_overridden_on_null_position :
    (job_monitor nullPosJob (pureSink Unit) (some 7) false "\r" 10).sleeps =
      [7, 2] ∧
    (2 : Int) ∈ (job_monitor nullPosJob (pureSink Unit) (some 7) false "\r" 10).sleeps ∧
    (2 : Int) ≠ 7 := by
  decide

/-- **C1** (amended).  If the caller explicitly supplies an interval, then
that value is used for every sleep of the session and is never
auto-adjusted from a *reported (non-null)* queue position; only a null
queue position overrides it (to 2).  Formally: for a job whose
queue-position calls never return `None`, every sleep of a
`job_monitor` run with a supplied interval `i` is of interval `i`. -/
theorem user_interval_used_verbatim_unless_null {ε : Type} (job : Job ε)
    (sink : Sink ε) (quiet : Bool) (ld : String) (fuel : Nat) (i : Int)
    (hq : ∀ n q, job.queue_position n = .ok q → q ≠ none) :
    ∀ x ∈ (job_monitor job sink (some i) quiet ld fuel).sleeps, x = i := by
  unfold job_monitor
  exact textChecker_iset_sleeps hq

/-- Witness for `user_interval_used_verbatim_unless_null` at a concrete
job that stays queued at position 3 before finishing: both sleeps use the
supplied interval 7. -/
theorem user_interval_used_verbatim_unless_null_witness :
    ((job_monitor steadyJob (pureSink Unit) (some 7) false "\r" 10).sleeps).all
      (fun x => x == 7) = true := by
  have h := user_interval_used_verbatim_unless_null steadyJob (pureSink Unit)
    false "\r" 10 7 (by intro n q hh; cases hh; simp)
  rw [List.all_eq_true]
  intro x hx
  exact beq_iff_eq.mpr (h x hx)

/-! ## Claim C2 -/

/-- **C2** (counterexample).  For the status sequence
`[queued(pos=3), queued(pos=1), running, done]` with no interval override,
the sleep intervals are 5, 2, 2 — not 5, 3, 2, 2 as claimed.  The first
queued status is fetched before the loop, where `queue_position` is never
consulted, so position 3 never influences any sleep; by the first in-loop
queued iteration the position is 1, giving `max(1, 2) = 2`. -/
theorem scenario_sleep_sequence_differs :
    (job_monitor scenarioJob (pureSink Unit) none false "\r" 10).sleeps =
      [5, 2, 2] ∧
    (job_monitor scenarioJob (pureSink Unit) none false "\r" 10).sleeps ≠
      [5, 3, 2, 2] := by
  decide

/-- **C2** (amended).  For the status sequence
`[queued(pos=3), queued(pos=1), running, done]` with no interval override
and `quiet = False`, the sleep intervals applied are 5, then 2, then 2,
and the final output consists of four distinct status lines terminated by
exactly one newline. -/
theorem scenario_trace_amended :
    (job_monitor scenarioJob (pureSink Unit) none false "\r" 10).sleeps =
      [5, 2, 2] ∧
    (job_monitor scenarioJob (pureSink Unit) none false "\r" 10).writes =
      ["\rJob Status: job is queued", "\rJob Status: job is queued (1)",
       "\rJob Status: job is actively running",
       "\rJob Status: job has successfully run", "\n"] ∧
    List.Pairwise (· ≠ ·)
      (job_monitor scenarioJob (pureSink Unit) none false "\r" 10).msgs ∧
    (job_monitor scenarioJob (pureSink Unit) none false "\r" 10).msgs.length =
      4 := by
  decide

/-! ## Claim C3 -/

/-- **C3** (counterexample).  The claim says a null queue position is
rendered as the string "unknown" in the display message.  In fact the
source renders it with Python's `"%s" % None`, producing "None": the
monitored run shows the message `job is queued (None)`, and that string
differs from `job is queued (unknown)`. -/
theorem null_position_not_rendered_unknown :
    (job_monitor nullPosJob (pureSink Unit) none false "\r" 10).msgs =
      ["job is queued", "job is queued (None)", "job has successfully run"] ∧
    ("job is queued (None)" : String) ≠ "job is queued (unknown)" := by
  decide

/-- **C3** (amended).  When a loop iteration observes the queued status on
a job that supports queue-position queries and the position is null, the
suffix appended to the display message renders the position as the string
"None" (Python's rendering of `None`), not "unknown": under no padding and
a changed message, the iteration prints exactly
`status.value ++ " (None)"`. -/
theorem null_position_rendered_None {ε : Type} (job : Job ε) (sink : Sink ε)
    (iset : Bool) (ld : String) (v : LoopVars) (s : RunState)
    (st : JobStatus)
    (hst : job.status s.statusIdx = .ok st)
    (hname : st.name = "QUEUED")
    (hqp : job.has_queue_position = true)
    (hq : ∀ n, job.queue_position n = .ok none)
    (hsink : ∀ n, sink.write n = .ok ())
    (hlen : v.msg_len ≤ (st.value ++ " (None)").length)
    (hprev : st.value ++ " (None)" ≠ v.prev_msg) :
    (loopIter job sink iset false ld v s).state.trace.msgs =
      s.trace.msgs ++ [st.value ++ " (None)"] := by
  have hmsg : (st.value ++ " (" ++ pyStr (none : Option Int)) ++ ")" =
      st.value ++ " (None)" := by
    rw [String.append_assoc, String.append_assoc]
    rfl
  rw [loopIter_eq_queued hst ⟨hname, hqp⟩,
    queuedStep_eq_none (hq _) (hq _), hmsg]
  have hpad : (padMsg (st.value ++ " (None)") v.msg_len).1 =
      st.value ++ " (None)" := padMsg_of_le hlen
  rw [finishIter_eq_print ⟨by rw [hpad]; exact hprev, rfl⟩ (hsink _)]
  simp [StepResult.state, hpad]

/-- Witness for `null_position_rendered_None` on `nullPosJob`: the printed
message of the first loop iteration is `job is queued (None)`. -/
theorem null_position_rendered_None_witness :
    (loopIter nullPosJob (pureSink Unit) false false "\r"
        ⟨5, 0, "x", queuedStatus⟩ initState).state.trace.msgs =
      initState.trace.msgs ++ [queuedStatus.value ++ " (None)"] :=
  null_position_rendered_None nullPosJob (pureSink Unit) false "\r"
    ⟨5, 0, "x", queuedStatus⟩ initState queuedStatus rfl rfl rfl
    (fun _ => rfl) (fun _ => rfl) (by decide) (by decide)

/-- When no write raises, `finishIter` continues with exactly the interval
it was handed. -/
theorem finishIter_intervalOf {ε : Type} (sink : Sink ε) (quiet : Bool)
    (ld : String) (i : Int) (m : String) (st : JobStatus) (ml : Nat)
    (pm : String) (s : RunState)
    (hsink : ∀ n, sink.write n = .ok ()) :
    (finishIter sink quiet ld i m st ml pm s).intervalOf = some i := by
  obtain ⟨pm', s', heq, h1, h2, h3, h4⟩ :=
    finishIter_ok sink quiet ld i m st ml pm s hsink
  rw [heq]
  rfl

/-- The padded message is the raw message followed by some number of
trailing spaces. -/
theorem padMsg_fst_eq (m : String) (ml : Nat) :
    ∃ k, (padMsg m ml).1 = m ++ spaces k := by
  unfold padMsg
  split
  · exact ⟨ml - m.length, rfl⟩
  · split
    · exact ⟨0, by rw [show spaces 0 = "" from rfl, String.append_empty]⟩
    · exact ⟨0, by rw [show spaces 0 = "" from rfl, String.append_empty]⟩

/-! ## Claim C4 -/

/-- **C4**.  When no interval was supplied (`interval_set = false`) and a
loop iteration observes the queued status on a job exposing
`queue_position` that consistently reports position `q`: if `q = some p`
with `p ≥ 2` the next sleep interval is `p`; if `p < 2` it is `2`; and if
`q` is null it is `2`. -/
theorem queued_interval_update {ε : Type} (job : Job ε) (sink : Sink ε)
    (quiet : Bool) (ld : String) (v : LoopVars) (s : RunState)
    (st : JobStatus) (q : Option Int)
    (hst : job.status s.statusIdx = .ok st)
    (hname : st.name = "QUEUED")
    (hqp : job.has_queue_position = true)
    (hq : ∀ k, job.queue_position (s.qposIdx + k) = .ok q)
    (hsink : ∀ n, sink.write n = .ok ()) :
    (loopIter job sink false quiet ld v s).intervalOf =
      some (match q with
            | none => 2
            | some p => if 2 ≤ p then p else 2) := by
  rw [loopIter_eq_queued hst ⟨hname, hqp⟩]
  have key : ∀ s1 : RunState, s1.qposIdx = s.qposIdx →
      (queuedStep job sink false quiet ld v st s1).intervalOf =
        some (match q with
              | none => 2
              | some p => if 2 ≤ p then p else 2) := by
    intro s1 hidx
    have hq0 : job.queue_position s1.qposIdx = .ok q := by
      rw [hidx]; exact hq 0
    have hq1 : job.queue_position (s1.qposIdx + 1) = .ok q := by
      rw [hidx]; exact hq 1
    have hq2 : job.queue_position (s1.qposIdx + 2) = .ok q := by
      rw [hidx]; exact hq 2
    cases q with
    | none =>
        rw [queuedStep_eq_none hq0 hq1]
        exact finishIter_intervalOf _ _ _ _ _ _ _ _ _ hsink
    | some p =>
        rw [queuedStep_eq_pos hq0 hq1 hq2]
        rw [finishIter_intervalOf _ _ _ _ _ _ _ _ _ hsink]
        show some (max p 2) = some (if 2 ≤ p then p else 2)
        rcases le_or_lt 2 p with h | h
        · rw [if_pos h, max_eq_left h]
        · rw [if_neg (not_le.mpr h), max_eq_right (le_of_lt h)]
  exact key _ rfl

/-- Witness for `queued_interval_update`: a job steadily queued at
position 3 makes the next sleep interval 3. -/
theorem queued_interval_update_witness :
    (loopIter steadyJob (pureSink Unit) false false "\r"
        ⟨5, 0, "x", queuedStatus⟩ initState).intervalOf = some 3 := by
  have h := queued_interval_update steadyJob (pureSink Unit) false "\r"
    ⟨5, 0, "x", queuedStatus⟩ initState queuedStatus (some 3) rfl rfl rfl
    (fun k => rfl) (fun n => rfl)
  simpa using h

/-! ## Claim C9 -/

/-- A job whose reported queue position changes between the monitor's
calls: successive `queue_position()` calls return 5, 7, 9, ... -/
def shiftyJob : Job Unit :=
  pureJob Unit
    (fun n => [queuedStatus, queuedStatus, doneStatus].getD n doneStatus)
    true (fun k => some (5 + 2 * k))

/-- **C9**.  In a loop iteration that observes the queued status on a job
exposing `queue_position`, the poller issues two or three queue-position
calls — three exactly when the second call returns non-null and the
interval was not user-set; the position shown in the (possibly padded)
message is the first call's result, while the interval is derived from the
second call (null test) and third call (`max(·, 2)`). -/
theorem queued_position_call_pattern {ε : Type} (job : Job ε)
    (sink : Sink ε) (iset quiet : Bool) (ld : String) (v : LoopVars)
    (s : RunState) (st : JobStatus) (q1 q2 : Option Int) (p3 : Int)
    (hst : job.status s.statusIdx = .ok st)
    (hname : st.name = "QUEUED")
    (hqp : job.has_queue_position = true)
    (hq1 : job.queue_position s.qposIdx = .ok q1)
    (hq2 : job.queue_position (s.qposIdx + 1) = .ok q2)
    (hq3 : job.queue_position (s.qposIdx + 2) = .ok (some p3))
    (hsink : ∀ n, sink.write n = .ok ()) :
    (loopIter job sink iset quiet ld v s).state.qposIdx =
      s.qposIdx + (if q2 ≠ none ∧ iset = false then 3 else 2) ∧
    (loopIter job sink iset quiet ld v s).intervalOf =
      some (match q2 with
            | none => 2
            | some _ => if iset = true then v.interval else max p3 2) ∧
    ((loopIter job sink iset quiet ld v s).state.trace.msgs =
        s.trace.msgs ∨
      ∃ k, (loopIter job sink iset quiet ld v s).state.trace.msgs =
        s.trace.msgs ++ [st.value ++ " (" ++ pyStr q1 ++ ")" ++ spaces k]) := by
  rw [loopIter_eq_queued hst ⟨hname, hqp⟩]
  have hfin : ∀ (i : Int) (s0 : RunState), s0.trace.msgs = s.trace.msgs →
      (finishIter sink quiet ld i (st.value ++ " (" ++ pyStr q1 ++ ")") st
          v.msg_len v.prev_msg s0).state.trace.msgs = s.trace.msgs ∨
      ∃ k, (finishIter sink quiet ld i (st.value ++ " (" ++ pyStr q1 ++ ")")
          st v.msg_len v.prev_msg s0).state.trace.msgs =
        s.trace.msgs ++ [st.value ++ " (" ++ pyStr q1 ++ ")" ++ spaces k] := by
    intro i s0 hs0
    obtain ⟨pm', s', heq, h1, h2, h3, h4⟩ :=
      finishIter_ok sink quiet ld i (st.value ++ " (" ++ pyStr q1 ++ ")") st
        v.msg_len v.prev_msg s0 hsink
    rw [heq]
    rcases h4 with ⟨hw, hm⟩ | ⟨hw, hm⟩
    · exact Or.inl (by rw [show (StepResult.next ⟨i, _, pm', st⟩ s').state = s'
        from rfl, hm, hs0])
    · obtain ⟨k, hk⟩ := padMsg_fst_eq (st.value ++ " (" ++ pyStr q1 ++ ")")
        v.msg_len
      refine Or.inr ⟨k, ?_⟩
      rw [show (StepResult.next ⟨i, _, pm', st⟩ s').state = s' from rfl, hm,
        hs0, hk]
  have key : ∀ s1 : RunState, s1.qposIdx = s.qposIdx →
      s1.trace.msgs = s.trace.msgs →
      (queuedStep job sink iset quiet ld v st s1).state.qposIdx =
        s.qposIdx + (if q2 ≠ none ∧ iset = false then 3 else 2) ∧
      (queuedStep job sink iset quiet ld v st s1).intervalOf =
        some (match q2 with
              | none => 2
              | some _ => if iset = true then v.interval else max p3 2) ∧
      ((queuedStep job sink iset quiet ld v st s1).state.trace.msgs =
          s.trace.msgs ∨
        ∃ k, (queuedStep job sink iset quiet ld v st s1).state.trace.msgs =
          s.trace.msgs ++
            [st.value ++ " (" ++ pyStr q1 ++ ")" ++ spaces k]) := by
    intro s1 hidx hm
    have hq1' : job.queue_position s1.qposIdx = .ok q1 := by
      rw [hidx]; exact hq1
    have hq2' : job.queue_position (s1.qposIdx + 1) = .ok q2 := by
      rw [hidx]; exact hq2
    have hq3' : job.queue_position (s1.qposIdx + 2) = .ok (some p3) := by
      rw [hidx]; exact hq3
    cases q2 with
    | none =>
        rw [queuedStep_eq_none hq1' hq2']
        refine ⟨?_, ?_, ?_⟩
        · rw [(finishIter_state_fields _ _ _ _ _ _ _ _ _).2.2]
          simp [hidx]
        · exact finishIter_intervalOf _ _ _ _ _ _ _ _ _ hsink
        · exact hfin 2 _ hm
    | some p =>
      cases iset with
      | true =>
          rw [queuedStep_eq_set hq1' hq2']
          refine ⟨?_, ?_, ?_⟩
          · rw [(finishIter_state_fields _ _ _ _ _ _ _ _ _).2.2]
            simp [hidx]
          · rw [finishIter_intervalOf _ _ _ _ _ _ _ _ _ hsink]
            rfl
          · exact hfin v.interval _ hm
      | false =>
          rw [queuedStep_eq_pos hq1' hq2' hq3']
          refine ⟨?_, ?_, ?_⟩
          · rw [(finishIter_state_fields _ _ _ _ _ _ _ _ _).2.2]
            simp [hidx]
          · rw [finishIter_intervalOf _ _ _ _ _ _ _ _ _ hsink]
            rfl
          · exact hfin (max p3 2) _ hm
  exact key _ rfl rfl

/-- Witness for `queued_position_call_pattern` on `shiftyJob`: the
iteration issues three queue-position calls, displays position 5 (the
first call's result) in its message, yet sets the next sleep interval to 9
(the third call's result). -/
theorem queued_position_call_pattern_witness :
    (loopIter shiftyJob (pureSink Unit) false false "\r"
        ⟨5, 0, "x", queuedStatus⟩ initState).state.qposIdx = 3 ∧
    (loopIter shiftyJob (pureSink Unit) false false "\r"
        ⟨5, 0, "x", queuedStatus⟩ initState).intervalOf = some 9 ∧
    (loopIter shiftyJob (pureSink Unit) false false "\r"
        ⟨5, 0, "x", queuedStatus⟩ initState).state.trace.msgs =
      ["job is queued (5)"] := by
  have h := queued_position_call_pattern shiftyJob (pureSink Unit) false
    false "\r" ⟨5, 0, "x", queuedStatus⟩ initState queuedStatus (some 5)
    (some 7) 9 rfl rfl rfl rfl rfl rfl (fun n => rfl)
  refine ⟨by simpa using h.1, by simpa using h.2.1, by decide⟩

/-! ## Termination and the final newline -/

/-- A status line always contains the 12-character label
`"Job Status: "`, so it is never the lone newline written at the end. -/
theorem statusLine_ne_newline (ld m : String) : statusLine ld m ≠ "\n" := by
  intro h
  have hlen := congrArg String.length h
  rw [statusLine] at hlen
  rw [String.length_append, String.length_append, String.length_append]
    at hlen
  have h1 : (": " : String).length = 2 := rfl
  have h2 : ("Job Status" : String).length = 10 := rfl
  have h3 : ("\n" : String).length = 1 := rfl
  omega

/-- On a job whose calls never raise, whose queue positions are
consistently null or consistently numeric, and a sink whose writes never
raise, every loop iteration continues: it consumes exactly one status
query, carries the fetched status into the next iteration, and extends the
write trace by at most one status line. -/
theorem loopIter_pure {ε : Type} (statusF : Nat → JobStatus) (hqp : Bool)
    (qposF : Nat → Option Int) (sink : Sink ε)
    (hsink : ∀ n, sink.write n = .ok ())
    (hcons : ∀ n m, (qposF n).isSome = (qposF m).isSome)
    (iset quiet : Bool) (ld : String) (v : LoopVars) (s : RunState) :
    ∃ v' s', loopIter (pureJob ε statusF hqp qposF) sink iset quiet ld v s =
        .next v' s' ∧
      v'.status = statusF s.statusIdx ∧
      s'.statusIdx = s.statusIdx + 1 ∧
      (s'.trace.writes = s.trace.writes ∨
        ∃ m, s'.trace.writes = s.trace.writes ++ [statusLine ld m]) := by
  have hst : (pureJob ε statusF hqp qposF).status s.statusIdx =
      .ok (statusF s.statusIdx) := rfl
  have hF : ∀ (i : Int) (m : String) (s0 : RunState),
      s0.statusIdx = s.statusIdx + 1 → s0.trace.writes = s.trace.writes →
      ∃ v' s', finishIter sink quiet ld i m (statusF s.statusIdx)
          v.msg_len v.prev_msg s0 = .next v' s' ∧
        v'.status = statusF s.statusIdx ∧
        s'.statusIdx = s.statusIdx + 1 ∧
        (s'.trace.writes = s.trace.writes ∨
          ∃ m', s'.trace.writes = s.trace.writes ++ [statusLine ld m']) := by
    intro i m s0 hsi hwr
    obtain ⟨pm', s', heq, h1, h2, h3, h4⟩ :=
      finishIter_ok sink quiet ld i m (statusF s.statusIdx)
        v.msg_len v.prev_msg s0 hsink
    refine ⟨⟨i, (padMsg m v.msg_len).2, pm', statusF s.statusIdx⟩, s', heq,
      rfl, h1.trans hsi, ?_⟩
    rcases h4 with ⟨hw, -⟩ | ⟨hw, -⟩
    · exact Or.inl (hw.trans hwr)
    · exact Or.inr ⟨(padMsg m v.msg_len).1, by rw [hw, hwr]⟩
  by_cases hq : (statusF s.statusIdx).name = "QUEUED" ∧
      (pureJob ε statusF hqp qposF).has_queue_position = true
  · rw [loopIter_eq_queued hst hq]
    have key : ∀ s1 : RunState, s1.statusIdx = s.statusIdx + 1 →
        s1.trace.writes = s.trace.writes →
        ∃ v' s', queuedStep (pureJob ε statusF hqp qposF) sink iset quiet ld
            v (statusF s.statusIdx) s1 = .next v' s' ∧
          v'.status = statusF s.statusIdx ∧
          s'.statusIdx = s.statusIdx + 1 ∧
          (s'.trace.writes = s.trace.writes ∨
            ∃ m, s'.trace.writes = s.trace.writes ++ [statusLine ld m]) := by
      intro s1 hsi hwr
      have h1 : (pureJob ε statusF hqp qposF).queue_position s1.qposIdx =
          .ok (qposF s1.qposIdx) := rfl
      cases hq2 : qposF (s1.qposIdx + 1) with
      | none =>
          have h2 : (pureJob ε statusF hqp qposF).queue_position
              (s1.qposIdx + 1) = .ok none := by
            show Except.ok (qposF (s1.qposIdx + 1)) = .ok none
            rw [hq2]
          rw [queuedStep_eq_none h1 h2]
          exact hF 2 _ _ hsi hwr
      | some p =>
          have h2 : (pureJob ε statusF hqp qposF).queue_position
              (s1.qposIdx + 1) = .ok (some p) := by
            show Except.ok (qposF (s1.qposIdx + 1)) = .ok (some p)
            rw [hq2]
          cases iset with
          | true =>
              rw [queuedStep_eq_set h1 h2]
              exact hF v.interval _ _ hsi hwr
          | false =>
              have hs3 : (qposF (s1.qposIdx + 2)).isSome = true := by
                rw [hcons (s1.qposIdx + 2) (s1.qposIdx + 1), hq2]
                rfl
              obtain ⟨p3, hp3⟩ := Option.isSome_iff_exists.mp hs3
              have h3 : (pureJob ε statusF hqp qposF).queue_position
                  (s1.qposIdx + 2) = .ok (some p3) := by
                show Except.ok (qposF (s1.qposIdx + 2)) = .ok (some p3)
                rw [hp3]
              rw [queuedStep_eq_pos h1 h2 h3]
              exact hF (max p3 2) _ _ hsi hwr
    exact key _ rfl rfl
  · rw [loopIter_eq_other hst hq]
    exact hF _ _ _ rfl rfl

/-- On a pure job, pure sink and consistent queue positions, the loop
reaches `finished` as soon as some status query at or beyond the current
index would return a terminal status within the fuel bound, and its final
write trace contains no lone newline if the starting one did not. -/
theorem loop_pure_finishes {ε : Type} (statusF : Nat → JobStatus)
    (hqp : Bool) (qposF : Nat → Option Int) (sink : Sink ε)
    (hsink : ∀ n, sink.write n = .ok ())
    (hcons : ∀ n m, (qposF n).isSome = (qposF m).isSome)
    (iset quiet : Bool) (ld : String) :
    ∀ (fuel : Nat) (v : LoopVars) (s : RunState),
      (v.status.name ∈ terminalNames ∨
        ∃ k, k < fuel ∧ (statusF (s.statusIdx + k)).name ∈ terminalNames) →
      (∀ w ∈ s.trace.writes, w ≠ "\n") →
      ∃ r, loop (pureJob ε statusF hqp qposF) sink iset quiet ld fuel v s =
          .finished r ∧ ∀ w ∈ r.trace.writes, w ≠ "\n"
  | 0, v, s => by
      intro hv hw
      unfold loop
      rcases hv with ht | ⟨k, hk, -⟩
      · rw [if_pos ht]
        exact ⟨s, rfl, hw⟩
      · omega
  | fuel + 1, v, s => by
      intro hv hw
      unfold loop
      by_cases ht : v.status.name ∈ terminalNames
      · rw [if_pos ht]
        exact ⟨s, rfl, hw⟩
      · rw [if_neg ht]
        rcases hv with ht' | ⟨k, hk, hterm⟩
        · exact absurd ht' ht
        · obtain ⟨v', s', heq, hstat, hsi, hwr⟩ :=
            loopIter_pure statusF hqp qposF sink hsink hcons iset quiet ld v s
          rw [heq]
          have hw' : ∀ w ∈ s'.trace.writes, w ≠ "\n" := by
            rcases hwr with hwr | ⟨m, hwr⟩
            · rw [hwr]; exact hw
            · rw [hwr]
              intro w hwm
              rcases List.mem_append.mp hwm with hwm | hwm
              · exact hw w hwm
              · rw [List.mem_singleton.mp hwm]
                exact statusLine_ne_newline ld m
          cases k with
          | zero =>
              refine loop_pure_finishes statusF hqp qposF sink hsink hcons
                iset quiet ld fuel v' s' (Or.inl ?_) hw'
              rw [hstat]
              exact hterm
          | succ k' =>
              refine loop_pure_finishes statusF hqp qposF sink hsink hcons
                iset quiet ld fuel v' s' (Or.inr ⟨k', by omega, ?_⟩) hw'
              rw [hsi]
              have harith : s.statusIdx + 1 + k' = s.statusIdx + (k' + 1) :=
                by omega
              rw [harith]
              exact hterm

/-- Whole-run version of `loop_pure_finishes`: on a pure job, pure sink
and consistent queue positions, `_text_checker` finishes once some status
query returns a terminal status, and when not quiet its writes end in
exactly one lone newline. -/
theorem textChecker_pure_finishes {ε : Type} (statusF : Nat → JobStatus)
    (hqp : Bool) (qposF : Nat → Option Int) (sink : Sink ε)
    (hsink : ∀ n, sink.write n = .ok ())
    (hcons : ∀ n m, (qposF n).isSome = (qposF m).isSome)
    (i : Int) (iset quiet : Bool) (ld : String) (N : Nat)
    (hterm : (statusF N).name ∈ terminalNames) :
    ∃ r, textChecker (pureJob ε statusF hqp qposF) sink i iset quiet ld N =
        .finished r ∧
      (quiet = false →
        ∃ ws, r.trace.writes = ws ++ ["\n"] ∧ ∀ w ∈ ws, w ≠ "\n") := by
  have hloop : ∀ s1 : RunState, s1.statusIdx = 1 →
      (∀ w ∈ s1.trace.writes, w ≠ "\n") →
      ∃ r, loop (pureJob ε statusF hqp qposF) sink iset quiet ld N
          ⟨i, (statusF 0).value.length, (statusF 0).value, statusF 0⟩ s1 =
        .finished r ∧ ∀ w ∈ r.trace.writes, w ≠ "\n" := by
    intro s1 hs1 hw1
    refine loop_pure_finishes statusF hqp qposF sink hsink hcons iset quiet
      ld N ⟨i, (statusF 0).value.length, (statusF 0).value, statusF 0⟩ s1
      ?_ hw1
    cases N with
    | zero => exact Or.inl hterm
    | succ n =>
        refine Or.inr ⟨n, by omega, ?_⟩
        rw [hs1]
        have harith : 1 + n = n + 1 := by omega
        rw [harith]
        exact hterm
  have h0 : (pureJob ε statusF hqp qposF).status 0 = .ok (statusF 0) := rfl
  cases quiet with
  | true =>
      rw [textChecker_eq_run h0 (initPrint_quiet sink ld (statusF 0)),
        postLoop_quiet]
      obtain ⟨r, hr, hwr⟩ := hloop initState.bumpStatus rfl
        (by intro w hw; cases hw)
      rw [hr]
      exact ⟨r, rfl, fun h => Bool.noConfusion h⟩
  | false =>
      rw [textChecker_eq_run h0 (initPrint_loud_ok (hsink _))]
      obtain ⟨r, hr, hwr⟩ := hloop
        (initState.bumpStatus.print
          (statusLine ld (statusF 0).value) (statusF 0).value) rfl
        (by
          intro w hw
          simp only [print_writes] at hw
          rcases List.mem_append.mp hw with hw | hw
          · cases hw
          · rw [List.mem_singleton.mp hw]
            exact statusLine_ne_newline ld (statusF 0).value)
      rw [hr, postLoop_loud_ok (hsink _)]
      exact ⟨r.newline, rfl, fun _ => ⟨r.trace.writes, by simp, hwr⟩⟩

/-! ## Error propagation: the frontier call's error is returned verbatim -/

/-- A raised `finishIter` returns verbatim the error of the sink write it
attempted, and that failing write sits exactly at the returned state's
write counter. -/
theorem finishIter_raised_src {ε : Type} {sink : Sink ε} {quiet : Bool}
    {ld : String} {i : Int} {m : String} {st : JobStatus} {ml : Nat}
    {pm : String} {s s' : RunState} {e : ε}
    (heq : finishIter sink quiet ld i m st ml pm s = .raised e s') :
    sink.write s'.writeIdx = .error e := by
  by_cases h : (padMsg m ml).1 ≠ pm ∧ quiet = false
  · cases hw : sink.write s.writeIdx with
    | error e' =>
        rw [finishIter_eq_print_err h hw] at heq
        injection heq with h1 h2
        rw [← h2, hw, ← h1]
    | ok u => cases u; rw [finishIter_eq_print h hw] at heq; cases heq
  · rw [finishIter_eq_skip h] at heq; cases heq

/-- A raised `queuedStep` returns verbatim the error of the failing
queue-position call or sink write, sitting exactly at the returned state's
corresponding counter. -/
theorem queuedStep_raised_src {ε : Type} {job : Job ε} {sink : Sink ε}
    {iset quiet : Bool} {ld : String} {v : LoopVars} {st : JobStatus}
    {s s' : RunState} {e : ε}
    (heq : queuedStep job sink iset quiet ld v st s = .raised e s') :
    job.queue_position s'.qposIdx = .error e ∨
    sink.write s'.writeIdx = .error e := by
  cases h1 : job.queue_position s.qposIdx with
  | error e1 =>
      rw [queuedStep_eq_err1 h1] at heq
      injection heq with ha hb
      refine Or.inl ?_
      rw [← hb, h1, ← ha]
  | ok q1 =>
    cases h2 : job.queue_position (s.qposIdx + 1) with
    | error e2 =>
        rw [queuedStep_eq_err2 h1 h2] at heq
        injection heq with ha hb
        refine Or.inl ?_
        rw [← hb]
        simp only [bumpQpos_qposIdx]
        rw [h2, ← ha]
    | ok q2 =>
      cases q2 with
      | none =>
          rw [queuedStep_eq_none h1 h2] at heq
          exact Or.inr (finishIter_raised_src heq)
      | some p =>
        cases iset with
        | true =>
            rw [queuedStep_eq_set h1 h2] at heq
            exact Or.inr (finishIter_raised_src heq)
        | false =>
          cases h3 : job.queue_position (s.qposIdx + 2) with
          | error e3 =>
              rw [queuedStep_eq_err3 h1 h2 h3] at heq
              injection heq with ha hb
              refine Or.inl ?_
              rw [← hb]
              simp only [bumpQpos_qposIdx]
              rw [show s.qposIdx + 1 + 1 = s.qposIdx + 2 from rfl, h3, ← ha]
          | ok q3 =>
            cases q3 with
            | none => rw [queuedStep_eq_typeErr h1 h2 h3] at heq; cases heq
            | some p3 =>
                rw [queuedStep_eq_pos h1 h2 h3] at heq
                exact Or.inr (finishIter_raised_src heq)

/-- A raised loop iteration returns verbatim the error of the failing
status call, queue-position call or sink write, sitting exactly at the
returned state's corresponding counter. -/
theorem loopIter_raised_src {ε : Type} {job : Job ε} {sink : Sink ε}
    {iset quiet : Bool} {ld : String} {v : LoopVars} {s s' : RunState}
    {e : ε}
    (heq : loopIter job sink iset quiet ld v s = .raised e s') :
    job.status s'.statusIdx = .error e ∨
    job.queue_position s'.qposIdx = .error e ∨
    sink.write s'.writeIdx = .error e := by
  cases h : job.status s.statusIdx with
  | error e0 =>
      rw [loopIter_eq_err h] at heq
      injection heq with ha hb
      refine Or.inl ?_
      rw [← hb]
      simp only [sleep_statusIdx]
      rw [h, ← ha]
  | ok st =>
    by_cases hq : st.name = "QUEUED" ∧ job.has_queue_position = true
    · rw [loopIter_eq_queued h hq] at heq
      exact Or.inr (queuedStep_raised_src heq)
    · rw [loopIter_eq_other h hq] at heq
      exact Or.inr (Or.inr (finishIter_raised_src heq))

/-- A raised loop returns verbatim the error of the failing frontier
call. -/
theorem loop_raised_src {ε : Type} {job : Job ε} {sink : Sink ε}
    {iset quiet : Bool} {ld : String} {e : ε} {s' : RunState} :
    ∀ (fuel : Nat) (v : LoopVars) (s : RunState),
      loop job sink iset quiet ld fuel v s = .raised e s' →
      job.status s'.statusIdx = .error e ∨
      job.queue_position s'.qposIdx = .error e ∨
      sink.write s'.writeIdx = .error e
  | 0, v, s => by
      intro heq
      unfold loop at heq
      split at heq <;> cases heq
  | fuel + 1, v, s => by
      intro heq
      unfold loop at heq
      split at heq
      · cases heq
      · cases hit : loopIter job sink iset quiet ld v s with
        | next v' s2 =>
            rw [hit] at heq
            exact loop_raised_src fuel v' s2 heq
        | raised e2 s2 =>
            rw [hit] at heq
            injection heq with ha hb
            rw [ha, hb] at hit
            exact loopIter_raised_src hit
        | typeErr s2 => rw [hit] at heq; cases heq

/-- A failed `initPrint` comes from the sink write it attempted (write
index 0, the write counter of the state the run then returns). -/
theorem initPrint_err_src {ε : Type} {sink : Sink ε} {quiet : Bool}
    {ld : String} {st : JobStatus} {e : ε}
    (h : initPrint sink quiet ld st = .error e) :
    sink.write initState.bumpStatus.writeIdx = .error e := by
  cases quiet with
  | true => rw [initPrint_quiet] at h; cases h
  | false =>
      cases hw : sink.write initState.bumpStatus.writeIdx with
      | error e' =>
          rw [initPrint_loud_err hw] at h
          injection h with h
          rw [← h]
      | ok u => cases u; rw [initPrint_loud_ok hw] at h; cases h

/-- A raised `postLoop` is either a raised loop result passed through
untouched or the final newline write failing at the returned state's
write counter. -/
theorem postLoop_raised_src {ε : Type} {sink : Sink ε} {quiet : Bool}
    {o : Outcome ε} {e : ε} {s' : RunState}
    (h : postLoop sink quiet o = .raised e s') :
    o = .raised e s' ∨ sink.write s'.writeIdx = .error e := by
  cases o with
  | finished s =>
      cases quiet with
      | true => rw [postLoop_quiet] at h; cases h
      | false =>
          cases hw : sink.write s.writeIdx with
          | error e2 =>
              rw [postLoop_loud_err hw] at h
              injection h with ha hb
              refine Or.inr ?_
              rw [← hb, hw, ← ha]
          | ok u => cases u; rw [postLoop_loud_ok hw] at h; cases h
  | outOfFuel v s => rw [postLoop_outOfFuel] at h; cases h
  | raised e2 s2 => rw [postLoop_raised] at h; exact Or.inl h
  | typeErr s => rw [postLoop_typeErr] at h; cases h

/-- A raised `_text_checker` run returns verbatim the error of the
failing status call, queue-position call or sink write, and that failing
call sits exactly at the returned state's corresponding counter. -/
theorem textChecker_raised_src {ε : Type} {job : Job ε} {sink : Sink ε}
    {i : Int} {iset quiet : Bool} {ld : String} {fuel : Nat} {e : ε}
    {r : RunState}
    (heq : textChecker job sink i iset quiet ld fuel = .raised e r) :
    job.status r.statusIdx = .error e ∨
    job.queue_position r.qposIdx = .error e ∨
    sink.write r.writeIdx = .error e := by
  cases h0 : job.status 0 with
  | error e0 =>
      rw [textChecker_eq_statusErr h0] at heq
      injection heq with ha hb
      refine Or.inl ?_
      rw [← hb]
      rw [show initState.statusIdx = 0 from rfl, h0, ← ha]
  | ok st =>
    cases hip : initPrint sink quiet ld st with
    | error e1 =>
        rw [textChecker_eq_printErr h0 hip] at heq
        injection heq with ha hb
        refine Or.inr (Or.inr ?_)
        have hsrc := initPrint_err_src hip
        rw [← hb, hsrc, ← ha]
    | ok s1 =>
        rw [textChecker_eq_run h0 hip] at heq
        rcases postLoop_raised_src heq with hl | hw
        · exact loop_raised_src fuel ⟨i, st.value.length, st.value, st⟩ s1 hl
        · exact Or.inr (Or.inr hw)

/-! ## Every call the run completed returned normally -/

/-- All collaborator calls strictly below the state's counters returned
normally: the run never continues past a failed call. -/
def callsOk {ε : Type} (job : Job ε) (sink : Sink ε) (s : RunState) :
    Prop :=
  (∀ n, n < s.statusIdx → ∃ st, job.status n = .ok st) ∧
  (∀ n, n < s.qposIdx → ∃ q, job.queue_position n = .ok q) ∧
  (∀ n, n < s.writeIdx → sink.write n = .ok ())

/-- No call has been issued at the start of a run. -/
theorem callsOk_initState {ε : Type} (job : Job ε) (sink : Sink ε) :
    callsOk job sink initState :=
  ⟨fun n hn => absurd hn (Nat.not_lt_zero n),
   fun n hn => absurd hn (Nat.not_lt_zero n),
   fun n hn => absurd hn (Nat.not_lt_zero n)⟩

/-- Recording a sleep issues no call. -/
theorem callsOk.sleep {ε : Type} {job : Job ε} {sink : Sink ε}
    {s : RunState} (h : callsOk job sink s) (i : Int) :
    callsOk job sink (s.sleep i) := h

/-- A status call is accounted for only when it returned normally. -/
theorem callsOk.bumpStatus {ε : Type} {job : Job ε} {sink : Sink ε}
    {s : RunState} {st : JobStatus} (h : callsOk job sink s)
    (hok : job.status s.statusIdx = .ok st) :
    callsOk job sink s.bumpStatus := by
  refine ⟨?_, h.2.1, h.2.2⟩
  intro n hn
  rw [bumpStatus_statusIdx] at hn
  rcases Nat.lt_succ_iff_lt_or_eq.mp hn with hn | hn
  · exact h.1 n hn
  · exact ⟨st, hn ▸ hok⟩

/-- A queue-position call is accounted for only when it returned
normally. -/
theorem callsOk.qpos {ε : Type} {job : Job ε} {sink : Sink ε}
    {s : RunState} {q : Option Int} (h : callsOk job sink s)
    (hok : job.queue_position s.qposIdx = .ok q) :
    callsOk job sink s.bumpQpos := by
  refine ⟨h.1, ?_, h.2.2⟩
  intro n hn
  rw [bumpQpos_qposIdx] at hn
  rcases Nat.lt_succ_iff_lt_or_eq.mp hn with hn | hn
  · exact h.2.1 n hn
  · exact ⟨q, hn ▸ hok⟩

/-- A status-line print is accounted for only when its write returned
normally. -/
theorem callsOk.print {ε : Type} {job : Job ε} {sink : Sink ε}
    {s : RunState} (h : callsOk job sink s)
    (hok : sink.write s.writeIdx = .ok ()) (line msg : String) :
    callsOk job sink (s.print line msg) := by
  refine ⟨h.1, h.2.1, ?_⟩
  intro n hn
  rw [print_writeIdx] at hn
  rcases Nat.lt_succ_iff_lt_or_eq.mp hn with hn | hn
  · exact h.2.2 n hn
  · exact hn ▸ hok

/-- The final newline is accounted for only when its write returned
normally. -/
theorem callsOk.newline {ε : Type} {job : Job ε} {sink : Sink ε}
    {s : RunState} (h : callsOk job sink s)
    (hok : sink.write s.writeIdx = .ok ()) :
    callsOk job sink s.newline := by
  refine ⟨h.1, h.2.1, ?_⟩
  intro n hn
  rw [show s.newline.writeIdx = s.writeIdx + 1 from rfl] at hn
  rcases Nat.lt_succ_iff_lt_or_eq.mp hn with hn | hn
  · exact h.2.2 n hn
  · exact hn ▸ hok

/-- `finishIter` preserves `callsOk`, whatever its result. -/
theorem finishIter_callsOk {ε : Type} {job : Job ε} {sink : Sink ε}
    {quiet : Bool} {ld : String} {i : Int} {m : String} {st : JobStatus}
    {ml : Nat} {pm : String} {s : RunState} (h : callsOk job sink s) :
    callsOk job sink (finishIter sink quiet ld i m st ml pm s).state := by
  by_cases hc : (padMsg m ml).1 ≠ pm ∧ quiet = false
  · cases hw : sink.write s.writeIdx with
    | error e => rw [finishIter_eq_print_err hc hw]; exact h
    | ok u =>
        cases u
        rw [finishIter_eq_print hc hw]
        exact h.print hw _ _
  · rw [finishIter_eq_skip hc]; exact h

/-- `queuedStep` preserves `callsOk`, whatever its result. -/
theorem queuedStep_callsOk {ε : Type} {job : Job ε} {sink : Sink ε}
    {iset quiet : Bool} {ld : String} {v : LoopVars} {st : JobStatus}
    {s : RunState} (h : callsOk job sink s) :
    callsOk job sink (queuedStep job sink iset quiet ld v st s).state := by
  cases h1 : job.queue_position s.qposIdx with
  | error e => rw [queuedStep_eq_err1 h1]; exact h
  | ok q1 =>
    have hb1 : callsOk job sink s.bumpQpos := h.qpos h1
    cases h2 : job.queue_position (s.qposIdx + 1) with
    | error e => rw [queuedStep_eq_err2 h1 h2]; exact hb1
    | ok q2 =>
      have hb2 : callsOk job sink s.bumpQpos.bumpQpos := hb1.qpos h2
      cases q2 with
      | none => rw [queuedStep_eq_none h1 h2]; exact finishIter_callsOk hb2
      | some p =>
        cases iset with
        | true => rw [queuedStep_eq_set h1 h2]; exact finishIter_callsOk hb2
        | false =>
          cases h3 : job.queue_position (s.qposIdx + 2) with
          | error e => rw [queuedStep_eq_err3 h1 h2 h3]; exact hb2
          | ok q3 =>
            have hb3 : callsOk job sink s.bumpQpos.bumpQpos.bumpQpos :=
              hb2.qpos h3
            cases q3 with
            | none => rw [queuedStep_eq_typeErr h1 h2 h3]; exact hb3
            | some p3 =>
                rw [queuedStep_eq_pos h1 h2 h3]
                exact finishIter_callsOk hb3

/-- A loop iteration preserves `callsOk`, whatever its result. -/
theorem loopIter_callsOk {ε : Type} {job : Job ε} {sink : Sink ε}
    {iset quiet : Bool} {ld : String} {v : LoopVars} {s : RunState}
    (h : callsOk job sink s) :
    callsOk job sink (loopIter job sink iset quiet ld v s).state := by
  cases h0 : job.status s.statusIdx with
  | error e => rw [loopIter_eq_err h0]; exact h
  | ok st =>
    have hb : callsOk job sink (s.sleep v.interval).bumpStatus :=
      callsOk.bumpStatus (h.sleep v.interval) h0
    by_cases hq : st.name = "QUEUED" ∧ job.has_queue_position = true
    · rw [loopIter_eq_queued h0 hq]
      exact queuedStep_callsOk hb
    · rw [loopIter_eq_other h0 hq]
      exact finishIter_callsOk hb

/-- The loop preserves `callsOk`, whatever its outcome. -/
theorem loop_callsOk {ε : Type} {job : Job ε} {sink : Sink ε}
    {iset quiet : Bool} {ld : String} :
    ∀ (fuel : Nat) (v : LoopVars) (s : RunState), callsOk job sink s →
      callsOk job sink (loop job sink iset quiet ld fuel v s).state
  | 0, v, s => by
      intro h
      unfold loop
      split
      · exact h
      · exact h
  | fuel + 1, v, s => by
      intro h
      unfold loop
      split
      · exact h
      · have hi := @loopIter_callsOk ε job sink iset quiet ld v s h
        cases hit : loopIter job sink iset quiet ld v s with
        | next v' s' =>
            rw [hit] at hi
            exact loop_callsOk fuel v' s' hi
        | raised e s' =>
            rw [hit] at hi
            exact hi
        | typeErr s' =>
            rw [hit] at hi
            exact hi

/-- `postLoop` preserves `callsOk`, whatever its outcome. -/
theorem postLoop_callsOk {ε : Type} {job : Job ε} {sink : Sink ε}
    {quiet : Bool} {o : Outcome ε} (h : callsOk job sink o.state) :
    callsOk job sink (postLoop sink quiet o).state := by
  cases o with
  | finished s =>
      cases quiet with
      | true => rw [postLoop_quiet]; exact h
      | false =>
          cases hw : sink.write s.writeIdx with
          | error e => rw [postLoop_loud_err hw]; exact h
          | ok u =>
              cases u
              rw [postLoop_loud_ok hw]
              exact callsOk.newline h hw
  | outOfFuel v s => rw [postLoop_outOfFuel]; exact h
  | raised e s => rw [postLoop_raised]; exact h
  | typeErr s => rw [postLoop_typeErr]; exact h

/-- A successful `initPrint` hands the loop a state whose issued calls
all returned normally. -/
theorem initPrint_ok_callsOk {ε : Type} {job : Job ε} {sink : Sink ε}
    {quiet : Bool} {ld : String} {st : JobStatus} {s1 : RunState}
    (hip : initPrint sink quiet ld st = .ok s1)
    (hb : callsOk job sink initState.bumpStatus) :
    callsOk job sink s1 := by
  cases quiet with
  | true =>
      rw [initPrint_quiet] at hip
      injection hip with hip
      rw [← hip]
      exact hb
  | false =>
      cases hw : sink.write initState.bumpStatus.writeIdx with
      | error e => rw [initPrint_loud_err hw] at hip; cases hip
      | ok u =>
          cases u
          rw [initPrint_loud_ok hw] at hip
          injection hip with hip
          rw [← hip]
          exact hb.print hw _ _

/-- Every collaborator call a `job_monitor` run completes returned
normally: the module never continues past a failed call. -/
theorem job_monitor_callsOk {ε : Type} (job : Job ε) (sink : Sink ε)
    (interval : Option Int) (quiet : Bool) (ld : String) (fuel : Nat) :
    callsOk job sink (job_monitor job sink interval quiet ld fuel).state
    := by
  have htc : ∀ (i : Int) (iset : Bool),
      callsOk job sink (textChecker job sink i iset quiet ld fuel).state := by
    intro i iset
    cases h0 : job.status 0 with
    | error e =>
        rw [textChecker_eq_statusErr h0]
        exact callsOk_initState job sink
    | ok st =>
      have hb : callsOk job sink initState.bumpStatus :=
        callsOk.bumpStatus (callsOk_initState job sink) h0
      cases hip : initPrint sink quiet ld st with
      | error e1 =>
          rw [textChecker_eq_printErr h0 hip]
          exact hb
      | ok s1 =>
          rw [textChecker_eq_run h0 hip]
          exact postLoop_callsOk
            (loop_callsOk fuel ⟨i, st.value.length, st.value, st⟩ s1
              (initPrint_ok_callsOk hip hb))
  unfold job_monitor
  cases interval with
  | none => exact htc 5 false
  | some i => exact htc i true

/-! ## Quiet non-interference -/

/-- Loop variables of a quiet and a non-quiet run agree except possibly in
`prev_msg` (which only gates printing). -/
def VRel (v₁ v₂ : LoopVars) : Prop :=
  v₁.interval = v₂.interval ∧ v₁.msg_len = v₂.msg_len ∧ v₁.status = v₂.status

/-- Run states of a quiet and a non-quiet run agree on everything the
quiet flag must not influence: the status queries, the queue-position
queries and the sleeps. -/
def StRel (s₁ s₂ : RunState) : Prop :=
  s₁.statusIdx = s₂.statusIdx ∧ s₁.qposIdx = s₂.qposIdx ∧
  s₁.trace.sleeps = s₂.trace.sleeps

/-- Step results correspond: same constructor, same raised error, related
states and variables. -/
def StepRel {ε : Type} : StepResult ε → StepResult ε → Prop
  | .next v₁ s₁, .next v₂ s₂ => VRel v₁ v₂ ∧ StRel s₁ s₂
  | .raised e₁ s₁, .raised e₂ s₂ => e₁ = e₂ ∧ StRel s₁ s₂
  | .typeErr s₁, .typeErr s₂ => StRel s₁ s₂
  | _, _ => False

/-- Outcomes correspond: same constructor, same raised error, related
states and variables. -/
def OutRel {ε : Type} : Outcome ε → Outcome ε → Prop
  | .finished s₁, .finished s₂ => StRel s₁ s₂
  | .outOfFuel v₁ s₁, .outOfFuel v₂ s₂ => VRel v₁ v₂ ∧ StRel s₁ s₂
  | .raised e₁ s₁, .raised e₂ s₂ => e₁ = e₂ ∧ StRel s₁ s₂
  | .typeErr s₁, .typeErr s₂ => StRel s₁ s₂
  | _, _ => False

/-- Bumping the queue-position counter on both sides preserves the
relation. -/
theorem StRel.bumpQpos {s₁ s₂ : RunState} (h : StRel s₁ s₂) :
    StRel s₁.bumpQpos s₂.bumpQpos := by
  obtain ⟨h1, h2, h3⟩ := h
  exact ⟨by simpa using h1, by simp [h2], by simpa using h3⟩

/-- With a never-failing sink, `finishIter` on the quiet and the non-quiet
side produce related continuations with the same interval and `msg_len`. -/
theorem finishIter_rel {ε : Type} (sink : Sink ε)
    (hsink : ∀ n, sink.write n = .ok ()) (ld : String) (i₁ i₂ : Int)
    (hi : i₁ = i₂) (m : String) (st : JobStatus) (ml₁ ml₂ : Nat)
    (hml : ml₁ = ml₂) (pm₁ pm₂ : String)
    {s₁ s₂ : RunState} (hs : StRel s₁ s₂) :
    StepRel (finishIter sink true ld i₁ m st ml₁ pm₁ s₁)
      (finishIter sink false ld i₂ m st ml₂ pm₂ s₂) := by
  subst hi
  subst hml
  rw [finishIter_quiet]
  obtain ⟨pm', s', heq, h1, h2, h3, -⟩ :=
    finishIter_ok sink false ld i₁ m st ml₁ pm₂ s₂ hsink
  rw [heq]
  exact ⟨⟨rfl, rfl, rfl⟩, hs.1.trans h1.symm, hs.2.1.trans h2.symm,
    hs.2.2.trans h3.symm⟩

/-- With a never-failing sink, `queuedStep` on the quiet and the non-quiet
side correspond. -/
theorem queuedStep_rel {ε : Type} (job : Job ε) (sink : Sink ε)
    (hsink : ∀ n, sink.write n = .ok ()) (iset : Bool) (ld : String)
    {v₁ v₂ : LoopVars} (st : JobStatus) {s₁ s₂ : RunState}
    (hv : VRel v₁ v₂) (hs : StRel s₁ s₂) :
    StepRel (queuedStep job sink iset true ld v₁ st s₁)
      (queuedStep job sink iset false ld v₂ st s₂) := by
  have hq : s₂.qposIdx = s₁.qposIdx := hs.2.1.symm
  cases h1 : job.queue_position s₁.qposIdx with
  | error e =>
      rw [queuedStep_eq_err1 h1, queuedStep_eq_err1 (by rw [hq]; exact h1)]
      exact ⟨rfl, hs⟩
  | ok q1 =>
    cases h2 : job.queue_position (s₁.qposIdx + 1) with
    | error e =>
        rw [queuedStep_eq_err2 h1 h2,
          queuedStep_eq_err2 (by rw [hq]; exact h1) (by rw [hq]; exact h2)]
        exact ⟨rfl, hs.bumpQpos⟩
    | ok q2 =>
      cases q2 with
      | none =>
          rw [queuedStep_eq_none h1 h2,
            queuedStep_eq_none (by rw [hq]; exact h1) (by rw [hq]; exact h2)]
          exact finishIter_rel sink hsink ld 2 2 rfl _ st v₁.msg_len
            v₂.msg_len hv.2.1 v₁.prev_msg v₂.prev_msg
            (hs.bumpQpos.bumpQpos)
      | some p =>
        cases iset with
        | true =>
            rw [queuedStep_eq_set h1 h2,
              queuedStep_eq_set (by rw [hq]; exact h1) (by rw [hq]; exact h2)]
            exact finishIter_rel sink hsink ld v₁.interval v₂.interval hv.1
              _ st v₁.msg_len v₂.msg_len hv.2.1 v₁.prev_msg v₂.prev_msg
              (hs.bumpQpos.bumpQpos)
        | false =>
          cases h3 : job.queue_position (s₁.qposIdx + 2) with
          | error e =>
              rw [queuedStep_eq_err3 h1 h2 h3,
                queuedStep_eq_err3 (by rw [hq]; exact h1)
                  (by rw [hq]; exact h2) (by rw [hq]; exact h3)]
              exact ⟨rfl, hs.bumpQpos.bumpQpos⟩
          | ok q3 =>
            cases q3 with
            | none =>
                rw [queuedStep_eq_typeErr h1 h2 h3,
                  queuedStep_eq_typeErr (by rw [hq]; exact h1)
                    (by rw [hq]; exact h2) (by rw [hq]; exact h3)]
                exact hs.bumpQpos.bumpQpos.bumpQpos
            | some p3 =>
                rw [queuedStep_eq_pos h1 h2 h3,
                  queuedStep_eq_pos (by rw [hq]; exact h1)
                    (by rw [hq]; exact h2) (by rw [hq]; exact h3)]
                exact finishIter_rel sink hsink ld (max p3 2) (max p3 2) rfl
                  _ st v₁.msg_len v₂.msg_len hv.2.1 v₁.prev_msg v₂.prev_msg
                  (hs.bumpQpos.bumpQpos.bumpQpos)

/-- With a never-failing sink, a quiet and a non-quiet loop iteration
correspond. -/
theorem loopIter_rel {ε : Type} (job : Job ε) (sink : Sink ε)
    (hsink : ∀ n, sink.write n = .ok ()) (iset : Bool) (ld : String)
    {v₁ v₂ : LoopVars} {s₁ s₂ : RunState}
    (hv : VRel v₁ v₂) (hs : StRel s₁ s₂) :
    StepRel (loopIter job sink iset true ld v₁ s₁)
      (loopIter job sink iset false ld v₂ s₂) := by
  have hssleep : StRel (s₁.sleep v₁.interval) (s₂.sleep v₂.interval) := by
    refine ⟨by simpa using hs.1, by simpa using hs.2.1, ?_⟩
    simp only [sleep_sleeps]
    rw [hs.2.2, hv.1]
  have hbump : StRel (s₁.sleep v₁.interval).bumpStatus
      (s₂.sleep v₂.interval).bumpStatus := by
    refine ⟨by simp [hs.1], by simpa using hssleep.2.1, ?_⟩
    simpa using hssleep.2.2
  have hsi : s₂.statusIdx = s₁.statusIdx := hs.1.symm
  cases h : job.status s₁.statusIdx with
  | error e =>
      rw [loopIter_eq_err h, loopIter_eq_err (by rw [hsi]; exact h)]
      exact ⟨rfl, hssleep⟩
  | ok st =>
    by_cases hqd : st.name = "QUEUED" ∧ job.has_queue_position = true
    · rw [loopIter_eq_queued h hqd,
        loopIter_eq_queued (by rw [hsi]; exact h) hqd]
      exact queuedStep_rel job sink hsink iset ld st hv hbump
    · rw [loopIter_eq_other h hqd,
        loopIter_eq_other (by rw [hsi]; exact h) hqd]
      exact finishIter_rel sink hsink ld
        (if iset = true then v₁.interval else 2)
        (if iset = true then v₂.interval else 2) (by rw [hv.1]) st.value st
        v₁.msg_len v₂.msg_len hv.2.1 v₁.prev_msg v₂.prev_msg hbump

/-- With a never-failing sink, a quiet and a non-quiet loop correspond:
same constructor, same error, same query counts and sleeps. -/
theorem loop_rel {ε : Type} (job : Job ε) (sink : Sink ε)
    (hsink : ∀ n, sink.write n = .ok ()) (iset : Bool) (ld : String) :
    ∀ (fuel : Nat) (v₁ v₂ : LoopVars) (s₁ s₂ : RunState),
      VRel v₁ v₂ → StRel s₁ s₂ →
      OutRel (loop job sink iset true ld fuel v₁ s₁)
        (loop job sink iset false ld fuel v₂ s₂)
  | 0, v₁, v₂, s₁, s₂ => by
      intro hv hs
      unfold loop
      rw [hv.2.2]
      by_cases ht : v₂.status.name ∈ terminalNames
      · rw [if_pos ht, if_pos ht]
        exact hs
      · rw [if_neg ht, if_neg ht]
        exact ⟨hv, hs⟩
  | fuel + 1, v₁, v₂, s₁, s₂ => by
      intro hv hs
      unfold loop
      rw [hv.2.2]
      by_cases ht : v₂.status.name ∈ terminalNames
      · rw [if_pos ht, if_pos ht]
        exact hs
      · rw [if_neg ht, if_neg ht]
        have hrel := loopIter_rel job sink hsink iset ld hv hs
        cases hit₁ : loopIter job sink iset true ld v₁ s₁ with
        | next v₁' s₁' =>
            cases hit₂ : loopIter job sink iset false ld v₂ s₂ with
            | next v₂' s₂' =>
                rw [hit₁, hit₂] at hrel
                exact loop_rel job sink hsink iset ld fuel v₁' v₂' s₁' s₂'
                  hrel.1 hrel.2
            | raised e s₂' => rw [hit₁, hit₂] at hrel; cases hrel
            | typeErr s₂' => rw [hit₁, hit₂] at hrel; cases hrel
        | raised e s₁' =>
            cases hit₂ : loopIter job sink iset false ld v₂ s₂ with
            | next v₂' s₂' => rw [hit₁, hit₂] at hrel; cases hrel
            | raised e₂ s₂' =>
                rw [hit₁, hit₂] at hrel
                exact hrel
            | typeErr s₂' => rw [hit₁, hit₂] at hrel; cases hrel
        | typeErr s₁' =>
            cases hit₂ : loopIter job sink iset false ld v₂ s₂ with
            | next v₂' s₂' => rw [hit₁, hit₂] at hrel; cases hrel
            | raised e₂ s₂' => rw [hit₁, hit₂] at hrel; cases hrel
            | typeErr s₂' =>
                rw [hit₁, hit₂] at hrel
                exact hrel

/-- With a never-failing sink, a quiet and a non-quiet `_text_checker`
run correspond. -/
theorem textChecker_rel {ε : Type} (job : Job ε) (sink : Sink ε)
    (hsink : ∀ n, sink.write n = .ok ()) (i : Int) (iset : Bool)
    (ld : String) (fuel : Nat) :
    OutRel (textChecker job sink i iset true ld fuel)
      (textChecker job sink i iset false ld fuel) := by
  cases h0 : job.status 0 with
  | error e =>
      rw [textChecker_eq_statusErr h0, textChecker_eq_statusErr h0]
      exact ⟨rfl, rfl, rfl, rfl⟩
  | ok st =>
      rw [textChecker_eq_run h0 (initPrint_quiet sink ld st),
        textChecker_eq_run h0 (initPrint_loud_ok (hsink _)), postLoop_quiet]
      have hrel := loop_rel job sink hsink iset ld fuel
        ⟨i, st.value.length, st.value, st⟩ ⟨i, st.value.length, st.value, st⟩
        initState.bumpStatus
        (initState.bumpStatus.print (statusLine ld st.value) st.value)
        ⟨rfl, rfl, rfl⟩ ⟨rfl, rfl, rfl⟩
      cases hout₁ : loop job sink iset true ld fuel
          ⟨i, st.value.length, st.value, st⟩ initState.bumpStatus with
      | finished s₁' =>
          cases hout₂ : loop job sink iset false ld fuel
              ⟨i, st.value.length, st.value, st⟩
              (initState.bumpStatus.print (statusLine ld st.value) st.value)
              with
          | finished s₂' =>
              rw [hout₁, hout₂] at hrel
              rw [postLoop_loud_ok (hsink _)]
              exact ⟨hrel.1, hrel.2.1, by simpa using hrel.2.2⟩
          | outOfFuel v₂' s₂' => rw [hout₁, hout₂] at hrel; cases hrel
          | raised e₂ s₂' => rw [hout₁, hout₂] at hrel; cases hrel
          | typeErr s₂' => rw [hout₁, hout₂] at hrel; cases hrel
      | outOfFuel v₁' s₁' =>
          cases hout₂ : loop job sink iset false ld fuel
              ⟨i, st.value.length, st.value, st⟩
              (initState.bumpStatus.print (statusLine ld st.value) st.value)
              with
          | finished s₂' => rw [hout₁, hout₂] at hrel; cases hrel
          | outOfFuel v₂' s₂' =>
              rw [hout₁, hout₂] at hrel
              rw [postLoop_outOfFuel]
              exact hrel
          | raised e₂ s₂' => rw [hout₁, hout₂] at hrel; cases hrel
          | typeErr s₂' => rw [hout₁, hout₂] at hrel; cases hrel
      | raised e₁ s₁' =>
          cases hout₂ : loop job sink iset false ld fuel
              ⟨i, st.value.length, st.value, st⟩
              (initState.bumpStatus.print (statusLine ld st.value) st.value)
              with
          | finished s₂' => rw [hout₁, hout₂] at hrel; cases hrel
          | outOfFuel v₂' s₂' => rw [hout₁, hout₂] at hrel; cases hrel
          | raised e₂ s₂' =>
              rw [hout₁, hout₂] at hrel
              rw [postLoop_raised]
              exact hrel
          | typeErr s₂' => rw [hout₁, hout₂] at hrel; cases hrel
      | typeErr s₁' =>
          cases hout₂ : loop job sink iset false ld fuel
              ⟨i, st.value.length, st.value, st⟩
              (initState.bumpStatus.print (statusLine ld st.value) st.value)
              with
          | finished s₂' => rw [hout₁, hout₂] at hrel; cases hrel
          | outOfFuel v₂' s₂' => rw [hout₁, hout₂] at hrel; cases hrel
          | raised e₂ s₂' => rw [hout₁, hout₂] at hrel; cases hrel
          | typeErr s₂' =>
              rw [hout₁, hout₂] at hrel
              rw [postLoop_typeErr]
              exact hrel

/-- The observable conclusions extracted from `OutRel`. -/
theorem OutRel_fields {ε : Type} {o₁ o₂ : Outcome ε} (h : OutRel o₁ o₂) :
    o₁.kind = o₂.kind ∧ o₁.errorOf = o₂.errorOf ∧ o₁.sleeps = o₂.sleeps ∧
    o₁.state.statusIdx = o₂.state.statusIdx ∧
    o₁.state.qposIdx = o₂.state.qposIdx := by
  cases o₁ <;> cases o₂ <;>
    first
      | exact absurd h (fun hf => hf)
      | · obtain ⟨h1, h2, h3⟩ := h
          exact ⟨rfl, rfl, h3, h1, h2⟩
      | · obtain ⟨he, h1, h2, h3⟩ := h
          exact ⟨rfl, by rw [Outcome.errorOf, Outcome.errorOf, he], h3, h1, h2⟩
      | · obtain ⟨hev, h1, h2, h3⟩ := h
          exact ⟨rfl, rfl, h3, h1, h2⟩

/-! ## Claim C10 -/

/-- An output sink every write on which raises. -/
def failingSink : Sink Unit := ⟨fun _ => .error ()⟩

/-- **C10** (counterexample).  The claim quantifies over any job handle
and configuration, and the configuration includes the output sink.  With
a sink whose writes raise, the quiet run polls the scenario job to
completion (four status queries, sleeps 5, 2, 2) while the non-quiet run
aborts at the very first write, after a single status query and no sleep:
the two runs' query and sleep sequences differ, so the quiet flag does
influence the polling behaviour in that region. -/
theorem quiet_flag_interferes_on_failing_sink :
    (job_monitor scenarioJob failingSink none true "\r" 10).sleeps =
      [5, 2, 2] ∧
    (job_monitor scenarioJob failingSink none false "\r" 10).sleeps = [] ∧
    (job_monitor scenarioJob failingSink none true "\r" 10).state.statusIdx =
      4 ∧
    (job_monitor scenarioJob failingSink none false "\r"
        10).state.statusIdx = 1 ∧
    (job_monitor scenarioJob failingSink none true "\r" 10).kind ≠
      (job_monitor scenarioJob failingSink none false "\r" 10).kind := by
  decide

/-- **C10** (amended).  For any job handle and configuration *whose sink
writes succeed*, running the poller with `quiet = true` and with
`quiet = false` produces the identical outcome shape, identical raised
error (if any), identical sleep-interval sequence, and identical numbers
of status and queue-position queries: the quiet flag influences only the
writes to the output sink, not the polling behaviour.  (A failing sink
write aborts only the non-quiet run, so the runs may diverge there.) -/
theorem quiet_flag_noninterference {ε : Type} (job : Job ε) (sink : Sink ε)
    (hsink : ∀ n, sink.write n = .ok ()) (interval : Option Int)
    (ld : String) (fuel : Nat) :
    (job_monitor job sink interval true ld fuel).kind =
      (job_monitor job sink interval false ld fuel).kind ∧
    (job_monitor job sink interval true ld fuel).errorOf =
      (job_monitor job sink interval false ld fuel).errorOf ∧
    (job_monitor job sink interval true ld fuel).sleeps =
      (job_monitor job sink interval false ld fuel).sleeps ∧
    (job_monitor job sink interval true ld fuel).state.statusIdx =
      (job_monitor job sink interval false ld fuel).state.statusIdx ∧
    (job_monitor job sink interval true ld fuel).state.qposIdx =
      (job_monitor job sink interval false ld fuel).state.qposIdx := by
  unfold job_monitor
  cases interval with
  | none =>
      exact OutRel_fields (textChecker_rel job sink hsink 5 false ld fuel)
  | some i =>
      exact OutRel_fields (textChecker_rel job sink hsink i true ld fuel)

/-- Witness for `quiet_flag_noninterference` on the concrete scenario
job with a never-failing sink. -/
theorem quiet_flag_noninterference_witness :
    (job_monitor scenarioJob (pureSink Unit) none true "\r" 10).kind =
      (job_monitor scenarioJob (pureSink Unit) none false "\r" 10).kind ∧
    (job_monitor scenarioJob (pureSink Unit) none true "\r" 10).errorOf =
      (job_monitor scenarioJob (pureSink Unit) none false "\r" 10).errorOf ∧
    (job_monitor scenarioJob (pureSink Unit) none true "\r" 10).sleeps =
      (job_monitor scenarioJob (pureSink Unit) none false "\r" 10).sleeps ∧
    (job_monitor scenarioJob (pureSink Unit) none true "\r"
        10).state.statusIdx =
      (job_monitor scenarioJob (pureSink Unit) none false "\r"
        10).state.statusIdx ∧
    (job_monitor scenarioJob (pureSink Unit) none true "\r"
        10).state.qposIdx =
      (job_monitor scenarioJob (pureSink Unit) none false "\r"
        10).state.qposIdx :=
  quiet_flag_noninterference scenarioJob (pureSink Unit) (fun _ => rfl)
    none "\r" 10

/-! ## Claim C8 -/

/-- A job whose status accessor raises the exception 42 on every call. -/
def failingJob : Job Nat := ⟨fun _ => .error 42, true, fun _ => .ok (some 1)⟩

/-- A job that is queued and whose queue-position accessor raises the
exception 7 on every call. -/
def qposFailJob : Job Nat :=
  ⟨fun n => .ok ([queuedStatus, queuedStatus].getD n doneStatus), true,
   fun _ => .error 7⟩

/-- A sink whose write operation raises the exception 9 on every call. -/
def writeFailSink : Sink Nat := ⟨fun _ => .error 9⟩

/-- **C8**.  Errors raised by the job's status accessor, its
queue-position accessor, or the sink's write operation propagate
unmodified to the caller of `job_monitor` — the module wraps, retries and
suppresses nothing.  (1) A run never continues past a failed call: every
call the run completed returned normally.  (2) Whenever a run raises `e`,
that very `e` was returned by the frontier collaborator call sitting
exactly at the returned state's counter.  (3-5) The failing call aborts
its stage at once: a failed status call raises out of its loop iteration,
a failed first queue-position call raises out of a queued iteration, and
a failed status-line write raises out of its print step, each passing the
error through verbatim.  (6-8) A raised stage propagates outward
unmodified: through the surrounding loop when the status is not terminal,
through the run built from a successful first print, and through the
final-newline step.  (9) In particular an error from the very first
status call surfaces as the run's outcome unchanged. -/
theorem collaborator_error_propagation {ε : Type} (job : Job ε)
    (sink : Sink ε) (interval : Option Int) (quiet : Bool) (ld : String)
    (fuel : Nat) :
    callsOk job sink (job_monitor job sink interval quiet ld fuel).state ∧
    (∀ (e : ε) (r : RunState),
      job_monitor job sink interval quiet ld fuel = .raised e r →
      job.status r.statusIdx = .error e ∨
      job.queue_position r.qposIdx = .error e ∨
      sink.write r.writeIdx = .error e) ∧
    (∀ (iset : Bool) (v : LoopVars) (s : RunState) (e : ε),
      job.status s.statusIdx = .error e →
      loopIter job sink iset quiet ld v s = .raised e (s.sleep v.interval)) ∧
    (∀ (iset : Bool) (v : LoopVars) (s : RunState) (st : JobStatus) (e : ε),
      job.status s.statusIdx = .ok st →
      st.name = "QUEUED" ∧ job.has_queue_position = true →
      job.queue_position s.qposIdx = .error e →
      loopIter job sink iset quiet ld v s =
        .raised e ((s.sleep v.interval).bumpStatus)) ∧
    (∀ (i : Int) (m : String) (st : JobStatus) (ml : Nat) (pm : String)
        (s : RunState) (e : ε),
      (padMsg m ml).1 ≠ pm → quiet = false →
      sink.write s.writeIdx = .error e →
      finishIter sink quiet ld i m st ml pm s = .raised e s) ∧
    (∀ (iset : Bool) (fl : Nat) (v : LoopVars) (s s' : RunState) (e : ε),
      v.status.name ∉ terminalNames →
      loopIter job sink iset quiet ld v s = .raised e s' →
      loop job sink iset quiet ld (fl + 1) v s = .raised e s') ∧
    (∀ (i : Int) (iset : Bool) (st : JobStatus) (s1 s' : RunState) (e : ε),
      job.status 0 = .ok st →
      initPrint sink quiet ld st = .ok s1 →
      loop job sink iset quiet ld fuel ⟨i, st.value.length, st.value, st⟩
        s1 = .raised e s' →
      textChecker job sink i iset quiet ld fuel = .raised e s') ∧
    (∀ (s2 : RunState) (e : ε),
      sink.write s2.writeIdx = .error e →
      postLoop sink false (.finished s2) = .raised e s2) ∧
    (∀ (e : ε),
      job.status 0 = .error e →
      job_monitor job sink interval quiet ld fuel = .raised e initState)
    := by
  refine ⟨?_, ?_, ?_, ?_, ?_, ?_, ?_, ?_, ?_⟩
  · exact job_monitor_callsOk job sink interval quiet ld fuel
  · intro e r heq
    unfold job_monitor at heq
    cases interval with
    | none => exact textChecker_raised_src heq
    | some i => exact textChecker_raised_src heq
  · intro iset v s e h
    exact loopIter_eq_err h
  · intro iset v s st e h hq hqe
    rw [loopIter_eq_queued h hq]
    exact queuedStep_eq_err1 hqe
  · intro i m st ml pm s e hne hq hw
    exact finishIter_eq_print_err ⟨hne, hq⟩ hw
  · intro iset fl v s s' e ht heq
    unfold loop
    rw [if_neg ht, heq]
  · intro i iset st s1 s' e h0 h1 hl
    rw [textChecker_eq_run h0 h1, hl]
    exact postLoop_raised sink quiet e s'
  · intro s2 e hw
    exact postLoop_loud_err hw
  · intro e h0
    unfold job_monitor
    cases interval with
    | none => exact textChecker_eq_statusErr h0
    | some i => exact textChecker_eq_statusErr h0

/-- Witness for `collaborator_error_propagation`: a first-status error 42
surfaces as the run's outcome and is traced to the status call at the
returned state's counter; a queue-position error 7 raises out of a queued
loop iteration; a sink-write error 9 raises out of a print step. -/
theorem collaborator_error_propagation_witness :
    job_monitor failingJob (pureSink Nat) none false "\r" 3 =
      .raised 42 initState ∧
    (failingJob.status initState.statusIdx = .error 42 ∨
     failingJob.queue_position initState.qposIdx = .error 42 ∨
     (pureSink Nat).write initState.writeIdx = .error 42) ∧
    loopIter qposFailJob (pureSink Nat) false false "\r"
      ⟨5, 1, "x", queuedStatus⟩ initState =
      .raised 7 ((initState.sleep 5).bumpStatus) ∧
    finishIter writeFailSink false "\r" 5 "msg" queuedStatus 0 "prev"
      initState = .raised 9 initState := by
  have hA := collaborator_error_propagation failingJob (pureSink Nat)
    none false "\r" 3
  have hQ := collaborator_error_propagation qposFailJob (pureSink Nat)
    none false "\r" 3
  have hW := collaborator_error_propagation failingJob writeFailSink
    none false "\r" 3
  have h1 := hA.2.2.2.2.2.2.2.2 42 rfl
  refine ⟨h1, hA.2.1 42 initState h1, ?_, ?_⟩
  · exact hQ.2.2.2.1 false ⟨5, 1, "x", queuedStatus⟩ initState
      queuedStatus 7 rfl ⟨rfl, rfl⟩ rfl
  · exact hW.2.2.2.2.1 5 "msg" queuedStatus 0 "prev" initState 9
      (by decide) rfl rfl

/-! ## Claim C5 -/

/-- A job that eventually reports the terminal `DONE` status, but whose
queue-position calls within the first queued iteration return the number
3 twice and then `None`: the third call feeds Python's `max(None, 2)`,
which raises `TypeError`. -/
def inconsistentJob : Job Unit :=
  pureJob Unit
    (fun n => [queuedStatus, queuedStatus, doneStatus].getD n doneStatus)
    true (fun k => [some 3, some 3].getD k none)

/-- **C5** (counterexample).  The claim quantifies over every status
sequence that eventually yields a terminal name and promises termination
plus exactly one final newline write when not quiet.  `inconsistentJob`
reports `DONE` at status query 2, yet the run aborts in its first queued
iteration with the `max(None, 2)` type error (outcome kind 3 = `typeErr`):
its writes are the single initial status line, and no newline is ever
written. -/
theorem terminal_status_without_final_newline :
    inconsistentJob.status 2 = .ok doneStatus ∧
    doneStatus.name ∈ terminalNames ∧
    (job_monitor inconsistentJob (pureSink Unit) none false "\r" 10).kind =
      3 ∧
    (job_monitor inconsistentJob (pureSink Unit) none false "\r" 10).writes =
      ["\rJob Status: job is queued"] ∧
    ("\n" : String) ∉
      (job_monitor inconsistentJob (pureSink Unit) none false "\r" 10).writes
    := by
  exact ⟨rfl, by decide, by decide, by decide, by decide⟩

/-- **C5** (amended).  For every status sequence that at some query index
`N` returns a status whose name is terminal (`DONE`, `CANCELLED` or
`ERROR`), a `job_monitor` run on a job whose calls do not raise *and
whose reported queue positions are consistently null or consistently
numeric* terminates in the `finished` outcome with fuel `N`, and when
`quiet` is false its writes end in exactly one lone newline, written
after the loop exits.  (Without the consistency proviso the code can
abort with `TypeError` from `max(None, 2)` before any terminal status is
fetched, and then no final newline is written.) -/
theorem terminal_status_terminates {ε : Type} (statusF : Nat → JobStatus)
    (hqp : Bool) (qposF : Nat → Option Int) (sink : Sink ε)
    (hsink : ∀ n, sink.write n = .ok ())
    (hcons : ∀ n m, (qposF n).isSome = (qposF m).isSome)
    (interval : Option Int) (quiet : Bool) (ld : String) (N : Nat)
    (hterm : (statusF N).name ∈ terminalNames) :
    ∃ r, job_monitor (pureJob ε statusF hqp qposF) sink interval quiet ld N =
        .finished r ∧
      (quiet = false →
        ∃ ws, r.trace.writes = ws ++ ["\n"] ∧ ∀ w ∈ ws, w ≠ "\n") := by
  unfold job_monitor
  cases interval with
  | none =>
      exact textChecker_pure_finishes statusF hqp qposF sink hsink hcons 5
        false quiet ld N hterm
  | some i =>
      exact textChecker_pure_finishes statusF hqp qposF sink hsink hcons i
        true quiet ld N hterm

/-- Witness for `terminal_status_terminates` on the concrete sequence
queued, running, done with a steady queue position. -/
theorem terminal_status_terminates_witness :
    ∃ r, job_monitor
        (pureJob Unit
          (fun n => [queuedStatus, runningStatus, doneStatus].getD n
            doneStatus)
          true (fun _ => some 1))
        (pureSink Unit) none false "\r" 2 = .finished r ∧
      (false = false →
        ∃ ws, r.trace.writes = ws ++ ["\n"] ∧ ∀ w ∈ ws, w ≠ "\n") :=
  terminal_status_terminates
    (fun n => [queuedStatus, runningStatus, doneStatus].getD n doneStatus)
    true (fun _ => some 1) (pureSink Unit) (fun _ => rfl)
    (fun _ _ => rfl) none false "\r" 2 (by decide)

/-! ## Printed message lengths never shrink -/

/-- The padded message's length is exactly the updated `msg_len`. -/
theorem padMsg_fst_length (m : String) (ml : Nat) :
    (padMsg m ml).1.length = (padMsg m ml).2 := by
  unfold padMsg
  split
  · next h =>
      simp only [String.length_append, spaces, String.length_mk,
        List.length_replicate]
      omega
  · split
    · rfl
    · next h1 h2 => simp only []; omega

/-- The updated `msg_len` never shrinks. -/
theorem padMsg_le (m : String) (ml : Nat) : ml ≤ (padMsg m ml).2 := by
  unfold padMsg
  split
  · simp
  · split
    · next h1 h2 => simp only []; omega
    · simp

/-- The invariant carried through the loop: the printed messages have
nondecreasing lengths, all bounded by the current `msg_len`. -/
def msgInv (l : List String) (ml : Nat) : Prop :=
  List.Chain' (fun a b => a.length ≤ b.length) l ∧ ∀ m ∈ l, m.length ≤ ml

/-- The invariant is stable under growing `msg_len`. -/
theorem msgInv_mono {l : List String} {ml ml' : Nat} (h : msgInv l ml)
    (hle : ml ≤ ml') : msgInv l ml' :=
  ⟨h.1, fun m hm => le_trans (h.2 m hm) hle⟩

/-- Appending a message at least as long as the bound preserves the
invariant at the new message's length. -/
theorem msgInv_snoc {l : List String} {ml : Nat} {m : String}
    (h : msgInv l ml) (hm : ml ≤ m.length) :
    msgInv (l ++ [m]) m.length := by
  constructor
  · rw [List.chain'_append]
    refine ⟨h.1, List.chain'_singleton m, ?_⟩
    intro x hx y hy
    rw [List.head?_cons, Option.mem_some_iff] at hy
    subst hy
    exact le_trans (h.2 x (List.mem_of_mem_getLast? hx)) hm
  · intro m' hm'
    rcases List.mem_append.mp hm' with hm' | hm'
    · exact le_trans (h.2 m' hm') hm
    · rw [List.mem_singleton.mp hm']

/-- `finishIter` preserves the message invariant: a printed message has
length exactly the new `msg_len`, which never shrinks. -/
theorem finishIter_msgInv {ε : Type} (sink : Sink ε) (quiet : Bool)
    (ld : String) (i : Int) (m : String) (st : JobStatus) (ml : Nat)
    (pm : String) (s : RunState)
    (hP : msgInv s.trace.msgs ml) :
    (∀ v' s', finishIter sink quiet ld i m st ml pm s = .next v' s' →
      msgInv s'.trace.msgs v'.msg_len) ∧
    (∀ e s', finishIter sink quiet ld i m st ml pm s = .raised e s' →
      s'.trace.msgs = s.trace.msgs) := by
  constructor
  · intro v' s' heq
    by_cases h : (padMsg m ml).1 ≠ pm ∧ quiet = false
    · cases hw : sink.write s.writeIdx with
      | error e => rw [finishIter_eq_print_err h hw] at heq; cases heq
      | ok u =>
          cases u
          rw [finishIter_eq_print h hw] at heq
          cases heq
          show msgInv (s.trace.msgs ++ [(padMsg m ml).1]) (padMsg m ml).2
          rw [← padMsg_fst_length]
          refine msgInv_snoc hP ?_
          rw [padMsg_fst_length]
          exact padMsg_le m ml
    · rw [finishIter_eq_skip h] at heq
      cases heq
      exact msgInv_mono hP (padMsg_le m ml)
  · intro e s' heq
    by_cases h : (padMsg m ml).1 ≠ pm ∧ quiet = false
    · cases hw : sink.write s.writeIdx with
      | error e' =>
          rw [finishIter_eq_print_err h hw] at heq
          cases heq
          rfl
      | ok u => cases u; rw [finishIter_eq_print h hw] at heq; cases heq
    · rw [finishIter_eq_skip h] at heq; cases heq

/-- `finishIter` never produces the queue-position type error. -/
theorem finishIter_ne_typeErr {ε : Type} {sink : Sink ε} {quiet : Bool}
    {ld : String} {i : Int} {m : String} {st : JobStatus} {ml : Nat}
    {pm : String} {s s' : RunState}
    (heq : finishIter sink quiet ld i m st ml pm s = .typeErr s') :
    False := by
  by_cases h : (padMsg m ml).1 ≠ pm ∧ quiet = false
  · cases hw : sink.write s.writeIdx with
    | error e => rw [finishIter_eq_print_err h hw] at heq; cases heq
    | ok u => cases u; rw [finishIter_eq_print h hw] at heq; cases heq
  · rw [finishIter_eq_skip h] at heq; cases heq

/-- `queuedStep` preserves the message invariant. -/
theorem queuedStep_msgInv {ε : Type} (job : Job ε) (sink : Sink ε)
    (iset quiet : Bool) (ld : String) (v : LoopVars) (st : JobStatus)
    (s : RunState) (hP : msgInv s.trace.msgs v.msg_len) :
    (∀ v' s', queuedStep job sink iset quiet ld v st s = .next v' s' →
      msgInv s'.trace.msgs v'.msg_len) ∧
    (∀ e s', queuedStep job sink iset quiet ld v st s = .raised e s' →
      s'.trace.msgs = s.trace.msgs) ∧
    (∀ s', queuedStep job sink iset quiet ld v st s = .typeErr s' →
      s'.trace.msgs = s.trace.msgs) := by
  have hstep : ∀ (i : Int) (m : String) (s0 : RunState),
      s0.trace.msgs = s.trace.msgs →
      (∀ v' s', finishIter sink quiet ld i m st v.msg_len v.prev_msg s0 =
          .next v' s' → msgInv s'.trace.msgs v'.msg_len) ∧
      (∀ e s', finishIter sink quiet ld i m st v.msg_len v.prev_msg s0 =
          .raised e s' → s'.trace.msgs = s.trace.msgs) ∧
      (∀ s', finishIter sink quiet ld i m st v.msg_len v.prev_msg s0 =
          .typeErr s' → s'.trace.msgs = s.trace.msgs) := by
    intro i m s0 hs0
    have h := finishIter_msgInv sink quiet ld i m st v.msg_len v.prev_msg s0
      (by rw [hs0]; exact hP)
    exact ⟨h.1, fun e s' heq => (h.2 e s' heq).trans hs0,
      fun s' heq => absurd (finishIter_ne_typeErr heq) (fun hf => hf)⟩
  cases h1 : job.queue_position s.qposIdx with
  | error e =>
      rw [queuedStep_eq_err1 h1]
      exact ⟨(fun v' s' heq => by cases heq),
        (fun e' s' heq => by cases heq; rfl),
        (fun s' heq => by cases heq)⟩
  | ok q1 =>
    cases h2 : job.queue_position (s.qposIdx + 1) with
    | error e =>
        rw [queuedStep_eq_err2 h1 h2]
        exact ⟨(fun v' s' heq => by cases heq),
          (fun e' s' heq => by cases heq; rfl),
          (fun s' heq => by cases heq)⟩
    | ok q2 =>
      cases q2 with
      | none =>
          rw [queuedStep_eq_none h1 h2]
          exact hstep 2 (st.value ++ " (" ++ pyStr q1 ++ ")")
            s.bumpQpos.bumpQpos rfl
      | some p =>
        cases iset with
        | true =>
            rw [queuedStep_eq_set h1 h2]
            exact hstep v.interval (st.value ++ " (" ++ pyStr q1 ++ ")")
              s.bumpQpos.bumpQpos rfl
        | false =>
          cases h3 : job.queue_position (s.qposIdx + 2) with
          | error e =>
              rw [queuedStep_eq_err3 h1 h2 h3]
              exact ⟨(fun v' s' heq => by cases heq),
                (fun e' s' heq => by cases heq; rfl),
                (fun s' heq => by cases heq)⟩
          | ok q3 =>
            cases q3 with
            | none =>
                rw [queuedStep_eq_typeErr h1 h2 h3]
                exact ⟨(fun v' s' heq => by cases heq),
                  (fun e' s' heq => by cases heq),
                  (fun s' heq => by cases heq; rfl)⟩
            | some p3 =>
                rw [queuedStep_eq_pos h1 h2 h3]
                exact hstep (max p3 2) (st.value ++ " (" ++ pyStr q1 ++ ")")
                  s.bumpQpos.bumpQpos.bumpQpos rfl

/-- A loop iteration preserves the message invariant. -/
theorem loopIter_msgInv {ε : Type} (job : Job ε) (sink : Sink ε)
    (iset quiet : Bool) (ld : String) (v : LoopVars) (s : RunState)
    (hP : msgInv s.trace.msgs v.msg_len) :
    (∀ v' s', loopIter job sink iset quiet ld v s = .next v' s' →
      msgInv s'.trace.msgs v'.msg_len) ∧
    (∀ e s', loopIter job sink iset quiet ld v s = .raised e s' →
      s'.trace.msgs = s.trace.msgs) ∧
    (∀ s', loopIter job sink iset quiet ld v s = .typeErr s' →
      s'.trace.msgs = s.trace.msgs) := by
  cases h : job.status s.statusIdx with
  | error e =>
      rw [loopIter_eq_err h]
      exact ⟨(fun v' s' heq => by cases heq),
        (fun e' s' heq => by cases heq; rfl),
        (fun s' heq => by cases heq)⟩
  | ok st =>
    by_cases hq : st.name = "QUEUED" ∧ job.has_queue_position = true
    · rw [loopIter_eq_queued h hq]
      exact queuedStep_msgInv job sink iset quiet ld v st
        (s.sleep v.interval).bumpStatus hP
    · rw [loopIter_eq_other h hq]
      have hf := finishIter_msgInv sink quiet ld
        (if iset = true then v.interval else 2) st.value st v.msg_len
        v.prev_msg (s.sleep v.interval).bumpStatus hP
      exact ⟨hf.1, hf.2,
        fun s' heq => absurd (finishIter_ne_typeErr heq) (fun hh => hh)⟩

/-- Any loop outcome's printed messages have nondecreasing lengths,
provided the invariant held on entry. -/
theorem loop_msgMono {ε : Type} (job : Job ε) (sink : Sink ε)
    (iset quiet : Bool) (ld : String) :
    ∀ (fuel : Nat) (v : LoopVars) (s : RunState),
      msgInv s.trace.msgs v.msg_len →
      List.Chain' (fun a b => a.length ≤ b.length)
        (loop job sink iset quiet ld fuel v s).msgs
  | 0, v, s => by
      intro hP
      unfold loop
      split
      · exact hP.1
      · exact hP.1
  | fuel + 1, v, s => by
      intro hP
      unfold loop
      split
      · exact hP.1
      · have hi := loopIter_msgInv job sink iset quiet ld v s hP
        cases hit : loopIter job sink iset quiet ld v s with
        | next v' s' =>
            exact loop_msgMono job sink iset quiet ld fuel v' s'
              (hi.1 v' s' hit)
        | raised e s' =>
            show List.Chain' _ s'.trace.msgs
            rw [hi.2.1 e s' hit]
            exact hP.1
        | typeErr s' =>
            show List.Chain' _ s'.trace.msgs
            rw [hi.2.2 s' hit]
            exact hP.1

/-- The post-loop newline print does not change the printed messages. -/
theorem postLoop_msgs {ε : Type} (sink : Sink ε) (quiet : Bool)
    (o : Outcome ε) : (postLoop sink quiet o).msgs = o.msgs := by
  cases o with
  | finished s =>
      cases quiet with
      | true => rw [postLoop_quiet]
      | false =>
          cases hw : sink.write s.writeIdx with
          | error e => rw [postLoop_loud_err hw]; rfl
          | ok u =>
              cases u
              rw [postLoop_loud_ok hw]
              simp [Outcome.msgs, Outcome.state]
  | outOfFuel v s => rw [postLoop_outOfFuel]
  | raised e s => rw [postLoop_raised]
  | typeErr s => rw [postLoop_typeErr]

/-! ## Claim C6 -/

/-- **C6**.  For any two consecutive messages printed during one session
their printed lengths are nondecreasing, and a message shorter than the
maximum length seen so far (`msg_len`) is padded with trailing spaces up
to exactly that maximum. -/
theorem printed_lengths_monotone {ε : Type} (job : Job ε) (sink : Sink ε)
    (interval : Option Int) (quiet : Bool) (ld : String) (fuel : Nat) :
    List.Chain' (fun a b => a.length ≤ b.length)
      (job_monitor job sink interval quiet ld fuel).msgs ∧
    ∀ (m : String) (ml : Nat), m.length < ml →
      (padMsg m ml).1 = m ++ spaces (ml - m.length) ∧
      (padMsg m ml).1.length = ml := by
  constructor
  · have htc : ∀ (i : Int) (iset : Bool),
        List.Chain' (fun a b => a.length ≤ b.length)
          (textChecker job sink i iset quiet ld fuel).msgs := by
      intro i iset
      cases h0 : job.status 0 with
      | error e =>
          rw [textChecker_eq_statusErr h0]
          exact List.chain'_nil
      | ok st =>
        cases quiet with
        | true =>
            rw [textChecker_eq_run h0 (initPrint_quiet sink ld st),
              postLoop_quiet]
            exact loop_msgMono job sink iset true ld fuel
              ⟨i, st.value.length, st.value, st⟩ initState.bumpStatus
              ⟨List.chain'_nil, by intro m hm; cases hm⟩
        | false =>
            cases hw : sink.write initState.bumpStatus.writeIdx with
            | error e =>
                rw [textChecker_eq_printErr h0 (initPrint_loud_err hw)]
                exact List.chain'_nil
            | ok u =>
                cases u
                rw [textChecker_eq_run h0 (initPrint_loud_ok hw)]
                rw [postLoop_msgs]
                refine loop_msgMono job sink iset false ld fuel
                  ⟨i, st.value.length, st.value, st⟩ _ ⟨?_, ?_⟩
                · exact List.chain'_singleton st.value
                · intro m hm
                  have h2 : m ∈ [st.value] := hm
                  rw [List.mem_singleton.mp h2]
    unfold job_monitor
    cases interval with
    | none => exact htc 5 false
    | some i => exact htc i true
  · intro m ml h
    constructor
    · unfold padMsg
      rw [if_pos h]
    · rw [padMsg_fst_length]
      unfold padMsg
      rw [if_pos h]

/-- Witness for `printed_lengths_monotone` on the concrete scenario run
and a concrete padding instance. -/
theorem printed_lengths_monotone_witness :
    List.Chain' (fun a b => a.length ≤ b.length)
      (job_monitor scenarioJob (pureSink Unit) none false "\r" 10).msgs ∧
    (padMsg "ab" 5).1 = "ab" ++ spaces 3 ∧ (padMsg "ab" 5).1.length = 5 := by
  have h := printed_lengths_monotone scenarioJob (pureSink Unit) none false
    "\r" 10
  exact ⟨h.1, (h.2 "ab" 5 (by decide)).1, (h.2 "ab" 5 (by decide)).2⟩

/-! ## Claim C7 -/

/-- **C7**.  When `quiet` is true, no writes whatsoever occur to the
output sink, for every job handle, sink, interval and status sequence:
the list of strings received by the sink is empty. -/
theorem quiet_run_writes_nothing {ε : Type} (job : Job ε) (sink : Sink ε)
    (interval : Option Int) (ld : String) (fuel : Nat) :
    (job_monitor job sink interval true ld fuel).writes = [] := by
  unfold job_monitor
  cases interval with
  | none => exact (textChecker_quiet job sink 5 false ld fuel).1
  | some i => exact (textChecker_quiet job sink i true ld fuel).1

end JobMonitor
